import Mathlib

/-!
Verification of the replication_checker_rs WAL-message parser and
replication session engine, as a shallow embedding in Lean.

Buffers are lists of bytes (modelled as Nat, big-endian integers).
Character tags are modelled by their ASCII byte values:
  B=66 C=67 R=82 I=73 U=85 D=68 T=84 S=83 E=69 c=99 A=65
  N=78 K=75 O=79 n=110 u=117 t=116 w=119 k=107 r=114
-/

namespace RepCheck

/-- Big-endian value of a byte list. -/
def beVal (bs : List Nat) : Nat := bs.foldl (fun a b => a * 256 + b) 0

/-- Big-endian byte list of width w for a value v (little-index = most significant). -/
def beBytes : Nat → Nat → List Nat
  | 0, _ => []
  | w + 1, v => (v / 256 ^ w % 256) :: beBytes w v

/-- Two's-complement interpretation of a bits-wide unsigned value. -/
def toSigned (bits : Nat) (v : Nat) : Int :=
  if v < 2 ^ (bits - 1) then (v : Int) else (v : Int) - 2 ^ bits

/-- Modelled from the spec: the error taxonomy of section 7 (the errors
module is not under src/; only the kind matters for the claims). -/
inductive RError where
  | parse : RError
  | protocol : RError
  | config : RError
  | connection : RError
  | buffer : RError
deriving DecidableEq, Repr

/-- Decidable equality for Except results, for concrete evaluation. -/
instance {e a : Type} [DecidableEq e] [DecidableEq a] : DecidableEq (Except e a) :=
  fun x y =>
    match x, y with
    | .error u, .error v =>
      if h : u = v then isTrue (h ▸ rfl)
      else isFalse (fun hc => h (Except.error.inj hc))
    | .ok u, .ok v =>
      if h : u = v then isTrue (h ▸ rfl)
      else isFalse (fun hc => h (Except.ok.inj hc))
    | .error _, .ok _ => isFalse (fun hc => Except.noConfusion hc)
    | .ok _, .error _ => isFalse (fun hc => Except.noConfusion hc)

/-- The byte slice d[p .. p+n). -/
def slice (d : List Nat) (p n : Nat) : List Nat := (d.drop p).take n

/-- Modelled from the spec: section 4.1 Byte Cursor remaining bytes
(buffer.rs is not under src/). -/
def remaining (d : List Nat) (p : Nat) : Nat := d.length - p

/-- Modelled from the spec: section 4.1 has_bytes(n), remaining ≥ n. -/
def has_bytes (d : List Nat) (p n : Nat) : Bool := decide (n ≤ d.length - p)

/-- Modelled from the spec: section 4.1 read_u8; fails when no byte remains. -/
def read_u8 (d : List Nat) (p : Nat) : Except RError (Nat × Nat) :=
  match d.get? p with
  | some b => .ok (b, p + 1)
  | none => .error .parse

/-- Modelled from the spec: section 4.1 big-endian unsigned read of n bytes. -/
def read_uint (d : List Nat) (p n : Nat) : Except RError (Nat × Nat) :=
  if p + n ≤ d.length then .ok (beVal (slice d p n), p + n) else .error .parse

def read_u16 (d : List Nat) (p : Nat) : Except RError (Nat × Nat) := read_uint d p 2

def read_u32 (d : List Nat) (p : Nat) : Except RError (Nat × Nat) := read_uint d p 4

def read_u64 (d : List Nat) (p : Nat) : Except RError (Nat × Nat) := read_uint d p 8

/-- Modelled from the spec: section 4.1 big-endian signed (two's-complement) read. -/
def read_int (d : List Nat) (p n : Nat) : Except RError (Int × Nat) :=
  match read_uint d p n with
  | .error e => .error e
  | .ok (v, q) => .ok (toSigned (n * 8) v, q)

def read_i16 (d : List Nat) (p : Nat) : Except RError (Int × Nat) := read_int d p 2

def read_i32 (d : List Nat) (p : Nat) : Except RError (Int × Nat) := read_int d p 4

def read_i64 (d : List Nat) (p : Nat) : Except RError (Int × Nat) := read_int d p 8

/-- Modelled from the spec: section 4.1 peek_u8, next byte without advancing. -/
def peek_u8 (d : List Nat) (p : Nat) : Except RError Nat :=
  match d.get? p with
  | some b => .ok b
  | none => .error .parse

/-- Offset of the first zero byte of a list, if any. -/
def scan_zero : List Nat → Option Nat
  | [] => none
  | b :: rest => if b = 0 then some 0 else (scan_zero rest).map (· + 1)

/-- Modelled from the spec: section 4.1 read_null_terminated_string; consumes
up to and including the next 0x00 and yields the preceding bytes; fails when
no terminator remains. -/
def read_null_terminated_string (d : List Nat) (p : Nat) :
    Except RError (List Nat × Nat) :=
  match scan_zero (d.drop p) with
  | none => .error .parse
  | some off => .ok (slice d p off, p + off + 1)

/-- Modelled from the spec: section 4.1 read_length_prefixed_string; reads an
int32 length L, fails when L < 0 or L exceeds the remaining bytes. -/
def read_length_prefixed_string (d : List Nat) (p : Nat) :
    Except RError (List Nat × Nat) :=
  match read_i32 d p with
  | .error e => .error e
  | .ok (len, q) =>
    if len < 0 then .error .parse
    else if d.length - q < len.toNat then .error .parse
    else .ok (slice d q len.toNat, q + len.toNat)

/-- Modelled from the spec: section 4.1 set_position (controlled rewind). -/
def set_position (d : List Nat) (q : Nat) : Except RError Nat :=
  if q ≤ d.length then .ok q else .error .parse

/-- Reads the one-byte message tag (BufferReader::skip_message_type). -/
def skip_message_type (d : List Nat) (p : Nat) : Except RError (Nat × Nat) :=
  read_u8 d p

/-- types.rs ColumnInfo (strings are byte lists; key_flag read as i8). -/
structure ColumnInfo where
  key_flag : Int
  column_name : List Nat
  column_type : Nat
  atttypmod : Int
deriving DecidableEq, Repr

/-- types.rs RelationInfo (replica_identity is the tag byte). -/
structure RelationInfo where
  oid : Nat
  namespace_ : List Nat
  relation_name : List Nat
  replica_identity : Nat
  column_count : Int
  columns : List ColumnInfo
deriving DecidableEq, Repr

/-- types.rs ColumnData; data_type is the tag byte (110 'n', 117 'u', 116 't'). -/
structure ColumnData where
  data_type : Nat
  length : Int
  data : List Nat
deriving DecidableEq, Repr

/-- types.rs TupleData. -/
structure TupleData where
  column_count : Int
  columns : List ColumnData
  processed_length : Nat
deriving DecidableEq, Repr

/-- types.rs ReplicationMessage. -/
inductive ReplicationMessage where
  | begin (final_lsn : Nat) (timestamp : Int) (xid : Nat)
  | commit (flags : Nat) (commit_lsn : Nat) (end_lsn : Nat) (timestamp : Int)
  | relation (relation : RelationInfo)
  | insert (relation_id : Nat) (tuple_data : TupleData) (is_stream : Bool)
      (xid : Option Nat)
  | update (relation_id : Nat) (key_type : Option Nat)
      (old_tuple_data : Option TupleData) (new_tuple_data : TupleData)
      (is_stream : Bool) (xid : Option Nat)
  | delete (relation_id : Nat) (key_type : Nat) (tuple_data : TupleData)
      (is_stream : Bool) (xid : Option Nat)
  | truncate (relation_ids : List Nat) (flags : Int) (is_stream : Bool)
      (xid : Option Nat)
  | streamStart (xid : Nat) (first_segment : Bool)
  | streamStop
  | streamCommit (xid : Nat) (flags : Nat) (commit_lsn : Nat) (end_lsn : Nat)
      (timestamp : Int)
  | streamAbort (xid : Nat) (subtransaction_xid : Nat)
deriving DecidableEq, Repr

/-- parser.rs parse_begin_message. -/
def parse_begin_message (d : List Nat) (p : Nat) : Except RError ReplicationMessage :=
  if ¬ has_bytes d p 20 then .error .parse
  else match read_u64 d p with
  | .error e => .error e
  | .ok (final_lsn, p1) =>
    match read_i64 d p1 with
    | .error e => .error e
    | .ok (timestamp, p2) =>
      match read_u32 d p2 with
      | .error e => .error e
      | .ok (xid, _) => .ok (.begin final_lsn timestamp xid)

/-- parser.rs parse_commit_message. -/
def parse_commit_message (d : List Nat) (p : Nat) : Except RError ReplicationMessage :=
  if ¬ has_bytes d p 25 then .error .parse
  else match read_u8 d p with
  | .error e => .error e
  | .ok (flags, p1) =>
    match read_u64 d p1 with
    | .error e => .error e
    | .ok (commit_lsn, p2) =>
      match read_u64 d p2 with
      | .error e => .error e
      | .ok (end_lsn, p3) =>
        match read_i64 d p3 with
        | .error e => .error e
        | .ok (timestamp, _) => .ok (.commit flags commit_lsn end_lsn timestamp)

/-- parser.rs parse_relation_message column loop (for i in 0..column_count). -/
def parse_relation_columns (d : List Nat) : Nat → Nat → Except RError (List ColumnInfo × Nat)
  | 0, p => .ok ([], p)
  | n + 1, p =>
    if ¬ has_bytes d p 9 then .error .parse
    else match read_u8 d p with
    | .error e => .error e
    | .ok (key_flag, p1) =>
      match read_null_terminated_string d p1 with
      | .error e => .error e
      | .ok (column_name, p2) =>
        match read_u32 d p2 with
        | .error e => .error e
        | .ok (column_type, p3) =>
          match read_i32 d p3 with
          | .error e => .error e
          | .ok (atttypmod, p4) =>
            match parse_relation_columns d n p4 with
            | .error e => .error e
            | .ok (rest, p5) =>
              .ok (⟨toSigned 8 key_flag, column_name, column_type, atttypmod⟩ :: rest, p5)

/-- parser.rs parse_relation_message. -/
def parse_relation_message (d : List Nat) (p : Nat) (in_streaming_txn : Bool) :
    Except RError ReplicationMessage :=
  if ¬ has_bytes d p (if in_streaming_txn then 11 else 7) then .error .parse
  else match (if in_streaming_txn then
                match read_u32 d p with
                | .error e => .error e
                | .ok (xid, q) => .ok (some xid, q)
              else (.ok (none, p) : Except RError (Option Nat × Nat))) with
  | .error e => .error e
  | .ok (_xid, p0) =>
    match read_u32 d p0 with
    | .error e => .error e
    | .ok (oid, p1) =>
      match read_null_terminated_string d p1 with
      | .error e => .error e
      | .ok (ns, p2) =>
        match read_null_terminated_string d p2 with
        | .error e => .error e
        | .ok (relation_name, p3) =>
          match read_u8 d p3 with
          | .error e => .error e
          | .ok (replica_identity, p4) =>
            match read_i16 d p4 with
            | .error e => .error e
            | .ok (column_count, p5) =>
              match parse_relation_columns d column_count.toNat p5 with
              | .error e => .error e
              | .ok (columns, _) =>
                .ok (.relation ⟨oid, ns, relation_name, replica_identity,
                      column_count, columns⟩)

/-- parser.rs parse_tuple_data per-column loop. -/
def parse_tuple_columns (d : List Nat) : Nat → Nat → Except RError (List ColumnData × Nat)
  | 0, p => .ok ([], p)
  | n + 1, p =>
    if ¬ has_bytes d p 1 then .error .parse
    else match read_u8 d p with
    | .error e => .error e
    | .ok (data_type, p1) =>
      if data_type = 110 then
        match parse_tuple_columns d n p1 with
        | .error e => .error e
        | .ok (rest, p2) => .ok (⟨110, 0, []⟩ :: rest, p2)
      else if data_type = 117 then
        match parse_tuple_columns d n p1 with
        | .error e => .error e
        | .ok (rest, p2) => .ok (⟨117, 0, []⟩ :: rest, p2)
      else if data_type = 116 then
        match read_length_prefixed_string d p1 with
        | .error e => .error e
        | .ok (text, p2) =>
          match parse_tuple_columns d n p2 with
          | .error e => .error e
          | .ok (rest, p3) => .ok (⟨116, (text.length : Int), text⟩ :: rest, p3)
      else .error .parse

/-- parser.rs parse_tuple_data. -/
def parse_tuple_data (d : List Nat) (p : Nat) : Except RError (TupleData × Nat) :=
  if ¬ has_bytes d p 2 then .error .parse
  else match read_i16 d p with
  | .error e => .error e
  | .ok (column_count, p1) =>
    match parse_tuple_columns d column_count.toNat p1 with
    | .error e => .error e
    | .ok (columns, p2) => .ok (⟨column_count, columns, p2 - p⟩, p2)

/-- parser.rs parse_insert_message. -/
def parse_insert_message (d : List Nat) (p : Nat) : Except RError ReplicationMessage :=
  if ¬ has_bytes d p 5 then .error .parse
  else match read_u32 d p with
  | .error e => .error e
  | .ok (transaction_id_or_oid, p1) =>
    match peek_u8 d p1 with
    | .error e => .error e
    | .ok b =>
      match (if b = 78 then
               (.ok (transaction_id_or_oid, false, none, p1) :
                 Except RError (Nat × Bool × Option Nat × Nat))
             else
               match read_u32 d p1 with
               | .error e => .error e
               | .ok (relation_id, p2) =>
                 .ok (relation_id, true, some transaction_id_or_oid, p2)) with
      | .error e => .error e
      | .ok (relation_id, is_stream, xid, p2) =>
        match read_u8 d p2 with
        | .error e => .error e
        | .ok (marker, p3) =>
          if marker ≠ 78 then .error .parse
          else match parse_tuple_data d p3 with
          | .error e => .error e
          | .ok (tuple_data, _) =>
            .ok (.insert relation_id tuple_data is_stream xid)

/-- parser.rs parse_update_message continuation after streaming disambiguation. -/
def parse_update_tail (d : List Nat) (relation_id : Nat) (is_stream : Bool)
    (xid : Option Nat) (p : Nat) : Except RError ReplicationMessage :=
  match read_u8 d p with
  | .error e => .error e
  | .ok (marker, p1) =>
    if marker = 75 ∨ marker = 79 then
      match parse_tuple_data d p1 with
      | .error e => .error e
      | .ok (old_td, p2) =>
        match read_u8 d p2 with
        | .error e => .error e
        | .ok (new_marker, p3) =>
          if new_marker ≠ 78 then .error .parse
          else match parse_tuple_data d p3 with
          | .error e => .error e
          | .ok (new_td, _) =>
            .ok (.update relation_id (some marker) (some old_td) new_td is_stream xid)
    else if marker = 78 then
      match parse_tuple_data d p1 with
      | .error e => .error e
      | .ok (new_td, _) =>
        .ok (.update relation_id none none new_td is_stream xid)
    else .error .parse

/-- parser.rs parse_update_message. -/
def parse_update_message (d : List Nat) (p : Nat) : Except RError ReplicationMessage :=
  if ¬ has_bytes d p 5 then .error .parse
  else match read_u32 d p with
  | .error e => .error e
  | .ok (transaction_id_or_oid, p1) =>
    match peek_u8 d p1 with
    | .error e => .error e
    | .ok next_byte =>
      if next_byte = 75 ∨ next_byte = 79 ∨ next_byte = 78 then
        parse_update_tail d transaction_id_or_oid false none p1
      else
        match read_u32 d p1 with
        | .error e => .error e
        | .ok (relation_id, p2) =>
          parse_update_tail d relation_id true (some transaction_id_or_oid) p2

/-- parser.rs parse_delete_message. -/
def parse_delete_message (d : List Nat) (p : Nat) : Except RError ReplicationMessage :=
  if ¬ has_bytes d p 5 then .error .parse
  else match read_u32 d p with
  | .error e => .error e
  | .ok (transaction_id_or_oid, p1) =>
    match peek_u8 d p1 with
    | .error e => .error e
    | .ok next_byte =>
      match ((if next_byte = 75 ∨ next_byte = 79 then
               match read_u8 d p1 with
               | .error e => .error e
               | .ok (key_type, p2) =>
                 .ok (transaction_id_or_oid, false, none, key_type, p2)
             else
               match read_u32 d p1 with
               | .error e => .error e
               | .ok (relation_id, p2) =>
                 match read_u8 d p2 with
                 | .error e => .error e
                 | .ok (key_type, p3) =>
                   .ok (relation_id, true, some transaction_id_or_oid, key_type, p3)) :
               Except RError (Nat × Bool × Option Nat × Nat × Nat)) with
      | .error e => .error e
      | .ok (relation_id, is_stream, xid, key_type, p2) =>
        match parse_tuple_data d p2 with
        | .error e => .error e
        | .ok (tuple_data, _) =>
          .ok (.delete relation_id key_type tuple_data is_stream xid)

/-- parser.rs parse_truncate_message relation-id loop. -/
def parse_truncate_relids (d : List Nat) : Nat → Nat → Except RError (List Nat × Nat)
  | 0, p => .ok ([], p)
  | n + 1, p =>
    if ¬ has_bytes d p 4 then .error .parse
    else match read_u32 d p with
    | .error e => .error e
    | .ok (relation_id, p1) =>
      match parse_truncate_relids d n p1 with
      | .error e => .error e
      | .ok (rest, p2) => .ok (relation_id :: rest, p2)

/-- parser.rs parse_truncate_message. -/
def parse_truncate_message (d : List Nat) (p : Nat) : Except RError ReplicationMessage :=
  if ¬ has_bytes d p 9 then .error .parse
  else match read_u32 d p with
  | .error e => .error e
  | .ok (first_u32, p1) =>
    match read_u32 d p1 with
    | .error e => .error e
    | .ok (second_u32, p2) =>
      match (if remaining d p2 = 1 + second_u32 * 4 then
               (.ok (true, some first_u32, second_u32, p2) :
                 Except RError (Bool × Option Nat × Nat × Nat))
             else
               match set_position d (p2 - 4) with
               | .error e => .error e
               | .ok q => .ok (false, none, first_u32, q)) with
      | .error e => .error e
      | .ok (is_stream, xid, num_relations, p3) =>
        match read_u8 d p3 with
        | .error e => .error e
        | .ok (flags, p4) =>
          match parse_truncate_relids d num_relations p4 with
          | .error e => .error e
          | .ok (relation_ids, _) =>
            .ok (.truncate relation_ids (toSigned 8 flags) is_stream xid)

/-- parser.rs parse_stream_start_message. -/
def parse_stream_start_message (d : List Nat) (p : Nat) : Except RError ReplicationMessage :=
  if ¬ has_bytes d p 4 then .error .parse
  else match read_u32 d p with
  | .error e => .error e
  | .ok (xid, p1) =>
    if has_bytes d p1 1 then
      match read_u8 d p1 with
      | .error e => .error e
      | .ok (b, _) => .ok (.streamStart xid (decide (b = 1)))
    else .ok (.streamStart xid false)

/-- parser.rs parse_stream_stop_message. -/
def parse_stream_stop_message (_d : List Nat) (_p : Nat) : Except RError ReplicationMessage :=
  .ok .streamStop

/-- parser.rs parse_stream_commit_message. -/
def parse_stream_commit_message (d : List Nat) (p : Nat) : Except RError ReplicationMessage :=
  if ¬ has_bytes d p 29 then .error .parse
  else match read_u32 d p with
  | .error e => .error e
  | .ok (xid, p1) =>
    match read_u8 d p1 with
    | .error e => .error e
    | .ok (flags, p2) =>
      match read_u64 d p2 with
      | .error e => .error e
      | .ok (commit_lsn, p3) =>
        match read_u64 d p3 with
        | .error e => .error e
        | .ok (end_lsn, p4) =>
          match read_i64 d p4 with
          | .error e => .error e
          | .ok (timestamp, _) =>
            .ok (.streamCommit xid flags commit_lsn end_lsn timestamp)

/-- parser.rs parse_stream_abort_message. -/
def parse_stream_abort_message (d : List Nat) (p : Nat) : Except RError ReplicationMessage :=
  if ¬ has_bytes d p 8 then .error .parse
  else match read_u32 d p with
  | .error e => .error e
  | .ok (xid, p1) =>
    match read_u32 d p1 with
    | .error e => .error e
    | .ok (subtransaction_xid, _) =>
      .ok (.streamAbort xid subtransaction_xid)

/-- parser.rs MessageParser::parse_wal_message: dispatch on the tag byte. -/
def parse_wal_message (buffer : List Nat) (in_streaming_txn : Bool) :
    Except RError ReplicationMessage :=
  match skip_message_type buffer 0 with
  | .error e => .error e
  | .ok (message_type, p) =>
    if message_type = 66 then parse_begin_message buffer p
    else if message_type = 67 then parse_commit_message buffer p
    else if message_type = 82 then parse_relation_message buffer p in_streaming_txn
    else if message_type = 73 then parse_insert_message buffer p
    else if message_type = 85 then parse_update_message buffer p
    else if message_type = 68 then parse_delete_message buffer p
    else if message_type = 84 then parse_truncate_message buffer p
    else if message_type = 83 then parse_stream_start_message buffer p
    else if message_type = 69 then parse_stream_stop_message buffer p
    else if message_type = 99 then parse_stream_commit_message buffer p
    else if message_type = 65 then parse_stream_abort_message buffer p
    else .error .parse

/-- types.rs ReplicationState. The relation cache is an association list with
newest entry first (HashMap insert-replaces; lookup takes the first hit).
The last_feedback_time Instant is wall-clock state and is not modelled. -/
structure ReplicationState where
  relations : List (Nat × RelationInfo)
  received_lsn : Nat
  flushed_lsn : Nat
  in_streaming_txn : Bool
  streaming_xid : Option Nat
deriving DecidableEq, Repr

/-- types.rs ReplicationState::new. -/
def ReplicationState.new : ReplicationState :=
  { relations := [], received_lsn := 0, flushed_lsn := 0,
    in_streaming_txn := false, streaming_xid := none }

/-- types.rs ReplicationState::start_streaming. -/
def ReplicationState.start_streaming (s : ReplicationState) (xid : Nat) : ReplicationState :=
  { s with in_streaming_txn := true, streaming_xid := some xid }

/-- types.rs ReplicationState::stop_streaming. -/
def ReplicationState.stop_streaming (s : ReplicationState) : ReplicationState :=
  { s with in_streaming_txn := false, streaming_xid := none }

/-- types.rs ReplicationState::add_relation (HashMap::insert keyed by oid). -/
def ReplicationState.add_relation (s : ReplicationState) (relation : RelationInfo) :
    ReplicationState :=
  { s with relations := (relation.oid, relation) :: s.relations }

/-- types.rs ReplicationState::get_relation. -/
def ReplicationState.get_relation (s : ReplicationState) (oid : Nat) : Option RelationInfo :=
  s.relations.lookup oid

/-- types.rs ReplicationState::update_lsn. -/
def ReplicationState.update_lsn (s : ReplicationState) (lsn : Nat) : ReplicationState :=
  if lsn > 0 then { s with received_lsn := max s.received_lsn lsn } else s

/-- types.rs ReplicationConfig (strings as character lists). -/
structure ReplicationConfig where
  connection_string : List Char
  publication_name : List Char
  slot_name : List Char
  feedback_interval_secs : Nat
deriving DecidableEq, Repr

/-- Rust str::trim().is_empty(): true exactly when every character is whitespace. -/
def trimmed_empty (s : List Char) : Bool := s.all (fun c => c.isWhitespace)

/-- types.rs ReplicationConfig::new. Char::is_ascii_alphanumeric is
Char.isAlphanum (both cover exactly ASCII letters and digits); the
byte-length limit equals the character count on the all-ASCII names that
survive the character check. -/
def ReplicationConfig.new (connection_string publication_name slot_name : List Char) :
    Except RError ReplicationConfig :=
  if trimmed_empty connection_string then .error .config
  else if trimmed_empty publication_name then .error .config
  else if trimmed_empty slot_name then .error .config
  else if ¬ slot_name.all (fun c => c.isAlphanum || decide (c = '_')) then .error .config
  else if slot_name.length > 63 then .error .config
  else .ok { connection_string, publication_name, slot_name,
             feedback_interval_secs := 1 }

/-- Modelled from the spec: section 4.1 Cursor Writer over a fixed-capacity
byte slice (buffer.rs is not under src/). -/
structure BufferWriter where
  cap : Nat
  buf : List Nat
deriving DecidableEq, Repr

/-- Modelled from the spec: Cursor Writer write_u8. -/
def BufferWriter.write_u8 (w : BufferWriter) (b : Nat) : Except RError BufferWriter :=
  if w.buf.length + 1 ≤ w.cap then .ok ⟨w.cap, w.buf ++ [b % 256]⟩ else .error .buffer

/-- Modelled from the spec: Cursor Writer write_u64 (big-endian). -/
def BufferWriter.write_u64 (w : BufferWriter) (v : Nat) : Except RError BufferWriter :=
  if w.buf.length + 8 ≤ w.cap then .ok ⟨w.cap, w.buf ++ beBytes 8 v⟩ else .error .buffer

/-- Modelled from the spec: Cursor Writer write_i64 (big-endian two's complement). -/
def BufferWriter.write_i64 (w : BufferWriter) (v : Int) : Except RError BufferWriter :=
  if w.buf.length + 8 ≤ w.cap then
    .ok ⟨w.cap, w.buf ++ beBytes 8 (v % (2 ^ 64 : Int)).toNat⟩
  else .error .buffer

/-- Modelled from the spec: Cursor Writer bytes_written. -/
def BufferWriter.bytes_written (w : BufferWriter) : Nat := w.buf.length

/-- Observable effects of the engine: transport calls, parser invocation and
the unknown-relation error report (server.rs error log in the DML arms). -/
inductive EngineCall where
  | put_copy_data (data : List Nat)
  | flush
  | parse_invoked (data : List Nat) (streaming : Bool)
  | report_unknown_relation (oid : Nat)
deriving DecidableEq, Repr

/-- server.rs ReplicationServer::send_feedback. The current PostgreSQL
timestamp is passed in as a parameter; the returned list is the sequence of
transport calls made. -/
def send_feedback (state : ReplicationState) (timestamp : Int) :
    Except RError (List EngineCall) :=
  if state.received_lsn = 0 then .ok []
  else
    match BufferWriter.write_u8 ⟨34, []⟩ 114 with
    | .error e => .error e
    | .ok w1 =>
      match w1.write_u64 state.received_lsn with
      | .error e => .error e
      | .ok w2 =>
        match w2.write_u64 state.received_lsn with
        | .error e => .error e
        | .ok w3 =>
          match w3.write_u64 0 with
          | .error e => .error e
          | .ok w4 =>
            match w4.write_i64 timestamp with
            | .error e => .error e
            | .ok w5 =>
              match w5.write_u8 0 with
              | .error e => .error e
              | .ok w6 =>
                .ok [.put_copy_data (w6.buf.take w6.bytes_written), .flush]

/-- server.rs ReplicationServer::process_replication_message. Returns the
state after the message, the observable calls, and the Result value. -/
def process_replication_message (s : ReplicationState) (message : ReplicationMessage) :
    ReplicationState × List EngineCall × Except RError Unit :=
  match message with
  | .begin _ _ _ => (s, [], .ok ())
  | .commit _ _ _ _ => (s, [], .ok ())
  | .relation relation => (s.add_relation relation, [], .ok ())
  | .insert relation_id _ _ _ =>
    match s.get_relation relation_id with
    | some _ => (s, [], .ok ())
    | none => (s, [.report_unknown_relation relation_id], .ok ())
  | .update relation_id _ _ _ _ _ =>
    match s.get_relation relation_id with
    | some _ => (s, [], .ok ())
    | none => (s, [.report_unknown_relation relation_id], .ok ())
  | .delete relation_id _ _ _ _ =>
    match s.get_relation relation_id with
    | some _ => (s, [], .ok ())
    | none => (s, [.report_unknown_relation relation_id], .ok ())
  | .truncate _ _ _ _ => (s, [], .ok ())
  | .streamStart xid _ => (s.start_streaming xid, [], .ok ())
  | .streamStop => (s.stop_streaming, [], .ok ())
  | .streamCommit _ _ _ _ _ => (s.stop_streaming, [], .ok ())
  | .streamAbort _ _ => (s.stop_streaming, [], .ok ())

/-- server.rs ReplicationServer::process_wal_message. Mirrors the in-place
state mutation: the final state is returned even when the Result is an
error. -/
def process_wal_message (state : ReplicationState) (data : List Nat) (timestamp : Int) :
    ReplicationState × List EngineCall × Except RError Unit :=
  if data.length < 25 then (state, [], .error .protocol)
  else
    match skip_message_type data 0 with
    | .error e => (state, [], .error e)
    | .ok (_, p0) =>
      match read_u64 data p0 with
      | .error e => (state, [], .error e)
      | .ok (data_start, p1) =>
        match read_u64 data p1 with
        | .error e => (state, [], .error e)
        | .ok (_wal_end, p2) =>
          match read_i64 data p2 with
          | .error e => (state, [], .error e)
          | .ok (_send_time, p3) =>
            let state1 := if data_start > 0 then state.update_lsn data_start else state
            if remaining data p3 = 0 then (state1, [], .error .protocol)
            else
              let message_data := data.drop p3
              match parse_wal_message message_data state1.in_streaming_txn with
              | .error e =>
                (state1, [.parse_invoked message_data state1.in_streaming_txn], .error e)
              | .ok message =>
                match process_replication_message state1 message with
                | (state2, calls, .error e) =>
                  (state2, .parse_invoked message_data state1.in_streaming_txn :: calls,
                    .error e)
                | (state2, calls, .ok _) =>
                  match send_feedback state2 timestamp with
                  | .error e =>
                    (state2, .parse_invoked message_data state1.in_streaming_txn :: calls,
                      .error e)
                  | .ok fb =>
                    (state2,
                      .parse_invoked message_data state1.in_streaming_txn :: calls ++ fb,
                      .ok ())

/-- State-mutating operations of the session, for the reachability claim. -/
inductive StateOp where
  | updateLsn (lsn : Nat)
  | addRelation (relation : RelationInfo)
  | dispatch (message : ReplicationMessage)

/-- Apply one state operation. -/
def applyOp (s : ReplicationState) : StateOp → ReplicationState
  | .updateLsn lsn => s.update_lsn lsn
  | .addRelation r => s.add_relation r
  | .dispatch m => (process_replication_message s m).1

/-- Apply a sequence of state operations starting from a state. -/
def applyOps (s : ReplicationState) (ops : List StateOp) : ReplicationState :=
  ops.foldl applyOp s

/-- A tuple datum on the wire (spec section 4.3 tuple body). -/
inductive WireDatum where
  | nullv
  | toast
  | text (bs : List Nat)
deriving DecidableEq, Repr

/-- Wire encoding of one tuple datum. -/
def encode_datum : WireDatum → List Nat
  | .nullv => [110]
  | .toast => [117]
  | .text bs => 116 :: beBytes 4 bs.length ++ bs

/-- Datum whose length fits the int32 length prefix. -/
def WFdatum : WireDatum → Prop
  | .nullv => True
  | .toast => True
  | .text bs => bs.length < 2 ^ 31

instance : DecidablePred WFdatum := fun d => by cases d <;> unfold WFdatum <;> infer_instance

/-- Wire encoding of a tuple: int16 column count then the datums. -/
def encode_tuple (t : List WireDatum) : List Nat :=
  beBytes 2 t.length ++ (t.map encode_datum).flatten

/-- Tuple whose column count fits the int16 and whose datums are well formed. -/
def WFtuple (t : List WireDatum) : Prop :=
  t.length < 2 ^ 15 ∧ ∀ d ∈ t, WFdatum d

instance : DecidablePred WFtuple := fun t => by unfold WFtuple; infer_instance

/-- A relation column descriptor on the wire (spec section 4.3 Relation row). -/
structure WireCol where
  key_flag : Nat
  name : List Nat
  type_oid : Nat
  typmod : Nat
deriving DecidableEq, Repr

/-- Wire encoding of one relation column descriptor. -/
def encode_col (c : WireCol) : List Nat :=
  c.key_flag :: (c.name ++ [0]) ++ beBytes 4 c.type_oid ++ beBytes 4 c.typmod

/-- Column descriptor with a NUL-free name. -/
def WFcol (c : WireCol) : Prop := 0 ∉ c.name

instance : DecidablePred WFcol := fun c => by unfold WFcol; infer_instance

/-- Validity of the optional old-tuple part of an Update message. -/
def WFold : Option (Nat × List WireDatum) → Prop
  | some (k, ot) => (k = 75 ∨ k = 79) ∧ WFtuple ot
  | none => True

instance : DecidablePred WFold := fun o => by
  cases o with
  | none => unfold WFold; infer_instance
  | some p => cases p; unfold WFold; infer_instance

/-- Replication messages as wire-level values for the encoder side
(spec section 4.3 wire layouts; integer fields carry the raw unsigned
big-endian value of their field width). -/
inductive WireMsg where
  | begin (final_lsn timestamp xid : Nat)
  | commit (flags commit_lsn end_lsn timestamp : Nat)
  | relation (xid : Option Nat) (oid : Nat) (ns name : List Nat) (ident : Nat)
      (cols : List WireCol)
  | insert (xid : Option Nat) (oid : Nat) (tuple : List WireDatum)
  | update (xid : Option Nat) (oid : Nat) (old : Option (Nat × List WireDatum))
      (newt : List WireDatum)
  | delete (xid : Option Nat) (oid : Nat) (key : Nat) (tuple : List WireDatum)
  | truncate (xid : Option Nat) (flags : Nat) (ids : List Nat)
  | streamStart (xid : Nat) (first_segment : Nat)
  | streamStop
  | streamCommit (xid flags commit_lsn end_lsn timestamp : Nat)
  | streamAbort (xid sub : Nat)
deriving DecidableEq, Repr

/-- Optional leading XID of a streamed DML message. -/
def encode_opt_xid : Option Nat → List Nat
  | some x => beBytes 4 x
  | none => []

/-- Wire encoding of a replication message per the spec section 4.3 layouts. -/
def encode_msg : WireMsg → List Nat
  | .begin final_lsn timestamp xid =>
    66 :: beBytes 8 final_lsn ++ beBytes 8 timestamp ++ beBytes 4 xid
  | .commit flags commit_lsn end_lsn timestamp =>
    67 :: flags :: beBytes 8 commit_lsn ++ beBytes 8 end_lsn ++ beBytes 8 timestamp
  | .relation xid oid ns name ident cols =>
    82 :: encode_opt_xid xid ++ beBytes 4 oid ++ ns ++ [0] ++ name ++ [0] ++
      ident :: beBytes 2 cols.length ++ (cols.map encode_col).flatten
  | .insert xid oid tuple =>
    73 :: encode_opt_xid xid ++ beBytes 4 oid ++ 78 :: encode_tuple tuple
  | .update xid oid old newt =>
    85 :: encode_opt_xid xid ++ beBytes 4 oid ++
      (match old with
       | some (k, ot) => k :: encode_tuple ot
       | none => []) ++ 78 :: encode_tuple newt
  | .delete xid oid key tuple =>
    68 :: encode_opt_xid xid ++ beBytes 4 oid ++ key :: encode_tuple tuple
  | .truncate xid flags ids =>
    84 :: (match xid with
           | some x => beBytes 4 x ++ beBytes 4 ids.length
           | none => beBytes 4 ids.length) ++
      flags :: (ids.map (beBytes 4)).flatten
  | .streamStart xid first_segment => 83 :: beBytes 4 xid ++ [first_segment]
  | .streamStop => [69]
  | .streamCommit xid flags commit_lsn end_lsn timestamp =>
    99 :: beBytes 4 xid ++ flags :: beBytes 8 commit_lsn ++ beBytes 8 end_lsn ++
      beBytes 8 timestamp
  | .streamAbort xid sub => 65 :: beBytes 4 xid ++ beBytes 4 sub

/-- High (most significant) byte of a 4-byte big-endian field. -/
def hiByte (v : Nat) : Nat := v / 256 ^ 3 % 256

/-- Well-formed wire messages: NUL-free strings, counts that fit their
field widths, and — for the streamed DML variants — a relation OID whose
high byte does not collide with the tuple-marker bytes the parser peeks at
(otherwise the wire itself is ambiguous). -/
def WFmsg : WireMsg → Prop
  | .begin _ _ _ => True
  | .commit _ _ _ _ => True
  | .relation _ _ ns name _ cols =>
    0 ∉ ns ∧ 0 ∉ name ∧ cols.length < 2 ^ 15 ∧ ∀ c ∈ cols, WFcol c
  | .insert xid oid tuple =>
    WFtuple tuple ∧ (xid.isSome → hiByte oid ≠ 78)
  | .update xid oid old newt =>
    WFtuple newt ∧ WFold old ∧
    (xid.isSome → hiByte oid ≠ 75 ∧ hiByte oid ≠ 79 ∧ hiByte oid ≠ 78)
  | .delete xid oid key tuple =>
    (key = 75 ∨ key = 79) ∧ WFtuple tuple ∧
    (xid.isSome → hiByte oid ≠ 75 ∧ hiByte oid ≠ 79)
  | .truncate _ _ _ => True
  | .streamStart _ _ => True
  | .streamStop => True
  | .streamCommit _ _ _ _ _ => True
  | .streamAbort _ _ => True

instance : DecidablePred WFmsg := fun m => by
  cases m <;> unfold WFmsg <;> try infer_instance

/-- The Relation layout carries an XID exactly when the session is inside a
streamed transaction, so its encoding is valid relative to that flag. -/
def flag_matches : WireMsg → Bool → Prop
  | .relation xid _ _ _ _ _, f => xid.isSome = f
  | _, _ => True

instance : ∀ m f, Decidable (flag_matches m f) := fun m f => by
  cases m <;> unfold flag_matches <;> infer_instance

/-- Tag test: StreamStart messages (the tag whose optional trailing byte
makes one strict prefix parse successfully). -/
def WireMsg.isSS : WireMsg → Bool
  | .streamStart _ _ => true
  | _ => false

/-- Tag test: Truncate messages (whose length-heuristic disambiguation can
accept a strict prefix). -/
def WireMsg.isTr : WireMsg → Bool
  | .truncate _ _ _ => true
  | _ => false

/-- Specification-side description of n big-endian u32 relation IDs laid out
consecutively from position p. -/
def relids_spec (d : List Nat) (p n : Nat) : List Nat :=
  (List.range n).map (fun i => beVal (slice d (p + 4 * i) 4))

/-- Prefix stability of a cursor operation: whenever it succeeds on a buffer
ending at position q, on any truncation of the buffer before q it fails with
Parse, and on any truncation at q or later it returns the same result. -/
def Frames {α : Type} (op : List Nat → Nat → Except RError (α × Nat)) : Prop :=
  ∀ d p a q, op d p = .ok (a, q) →
    p ≤ q ∧
    ∀ k, p ≤ k → k ≤ d.length →
      (k < q → op (d.take k) p = .error .parse)
      ∧ (q ≤ k → op (d.take k) p = .ok (a, q))

theorem read_uint_eq {d : List Nat} {p n : Nat} (h : p + n ≤ d.length) :
    read_uint d p n = .ok (beVal (slice d p n), p + n) := by
  simp [read_uint, h]

theorem read_uint_ok {d : List Nat} {p n v q : Nat}
    (h : read_uint d p n = .ok (v, q)) :
    v = beVal (slice d p n) ∧ q = p + n ∧ p + n ≤ d.length := by
  unfold read_uint at h
  split at h
  · simp only [Except.ok.injEq, Prod.mk.injEq] at h
    exact ⟨h.1.symm, h.2.symm, by assumption⟩
  · simp at h

theorem read_u8_eq {d : List Nat} {p b : Nat} (h : d.get? p = some b) :
    read_u8 d p = .ok (b, p + 1) := by
  unfold read_u8
  rw [h]

theorem has_bytes_true {d : List Nat} {p n : Nat} :
    has_bytes d p n = true ↔ n ≤ d.length - p := by
  simp [has_bytes]

theorem update_lsn_received (s : ReplicationState) (x : Nat) :
    (s.update_lsn x).received_lsn = max s.received_lsn x := by
  unfold ReplicationState.update_lsn
  split
  · rfl
  · simp; omega

theorem foldl_update_lsn (xs : List Nat) (s : ReplicationState) :
    (xs.foldl ReplicationState.update_lsn s).received_lsn
      = xs.foldl max s.received_lsn := by
  induction xs generalizing s with
  | nil => rfl
  | cons x xs ih => simp only [List.foldl_cons, ih, update_lsn_received]

theorem get?_some_lt {d : List Nat} {p b : Nat} (h : d.get? p = some b) :
    p < d.length :=
  (List.get?_eq_some.mp h).1

theorem get?_some_of_lt {d : List Nat} {p : Nat} (h : p < d.length) :
    ∃ b, d.get? p = some b :=
  ⟨_, List.get?_eq_get h⟩

theorem peek_u8_eq {d : List Nat} {p b : Nat} (h : d.get? p = some b) :
    peek_u8 d p = .ok b := by
  unfold peek_u8
  rw [h]

/-- Claim C5: starting from a fresh ReplicationState, any sequence of
update_lsn calls leaves received_lsn at the maximum of 0 and the inputs;
update_lsn 0 is the identity, and received_lsn never decreases at any step. -/
theorem C5_lsn_monotone_fold :
    (∀ xs : List Nat,
      (xs.foldl ReplicationState.update_lsn ReplicationState.new).received_lsn
        = xs.foldl max 0)
    ∧ (∀ s : ReplicationState, s.update_lsn 0 = s)
    ∧ (∀ (s : ReplicationState) (x : Nat),
        s.received_lsn ≤ (s.update_lsn x).received_lsn) := by
  refine ⟨fun xs => foldl_update_lsn xs ReplicationState.new, fun s => rfl,
    fun s x => ?_⟩
  rw [update_lsn_received]
  exact le_max_left _ _

/-- Claim C4: a buffer tagged 'S' with exactly four further bytes parses to
StreamStart with the big-endian u32 xid and first_segment = false; when a
fifth payload byte b is present, first_segment is true exactly when b is the
byte 1. -/
theorem C4_stream_start (buf : List Nat) (f : Bool) (h0 : buf.get? 0 = some 83) :
    (buf.length = 5 →
      parse_wal_message buf f = .ok (.streamStart (beVal (slice buf 1 4)) false))
    ∧ (∀ b, buf.get? 5 = some b →
      parse_wal_message buf f
        = .ok (.streamStart (beVal (slice buf 1 4)) (decide (b = 1)))) := by
  have hd : parse_wal_message buf f = parse_stream_start_message buf 1 := by
    unfold parse_wal_message skip_message_type
    rw [read_u8_eq h0]
    norm_num
  constructor
  · intro hlen
    rw [hd]
    unfold parse_stream_start_message read_u32
    rw [read_uint_eq (by omega : 1 + 4 ≤ buf.length)]
    simp [has_bytes, hlen]
  · intro b hb
    have hlen6 : 6 ≤ buf.length := by
      have := get?_some_lt hb
      omega
    rw [hd]
    unfold parse_stream_start_message read_u32
    rw [read_uint_eq (by omega : 1 + 4 ≤ buf.length)]
    simp only [has_bytes, read_u8_eq hb]
    have h1 : (decide (4 ≤ buf.length - 1)) = true := by simp; omega
    have h2 : (decide (1 ≤ buf.length - 5)) = true := by simp; omega
    rw [h1, h2]
    simp [read_u8_eq hb]

/-- Claim C4 witness: concrete instances for both lengths. -/
theorem C4_stream_start_witness :
    parse_wal_message [83, 0, 0, 1, 2] true
      = .ok (.streamStart 258 false)
    ∧ parse_wal_message [83, 0, 0, 1, 2, 1] true
      = .ok (.streamStart 258 true) := by
  constructor
  · have h := (C4_stream_start [83, 0, 0, 1, 2] true (by rfl)).1 (by rfl)
    simpa using h
  · have h := (C4_stream_start [83, 0, 0, 1, 2, 1] true (by rfl)).2 1 (by rfl)
    simpa using h

/-- Claim C9: with valid connection string and publication name, slot-name
validation succeeds exactly for non-blank names of ASCII alphanumerics or
underscores, at most 63 characters long; violations yield the Configuration
error. -/
theorem C9_slot_name_validation (conn pub slot : List Char)
    (hc : trimmed_empty conn = false) (hp : trimmed_empty pub = false) :
    ((∃ cfg, ReplicationConfig.new conn pub slot = .ok cfg)
      ↔ (trimmed_empty slot = false
         ∧ slot.all (fun c => c.isAlphanum || decide (c = '_')) = true
         ∧ slot.length ≤ 63))
    ∧ (¬ (trimmed_empty slot = false
          ∧ slot.all (fun c => c.isAlphanum || decide (c = '_')) = true
          ∧ slot.length ≤ 63)
        → ReplicationConfig.new conn pub slot = .error .config) := by
  unfold ReplicationConfig.new
  simp only [hc, hp, Bool.false_eq_true, if_false]
  by_cases hs : trimmed_empty slot = true
  · rw [if_pos hs]
    refine ⟨⟨fun ⟨cfg, hcfg⟩ => absurd hcfg (by simp), fun hcon => ?_⟩, fun _ => rfl⟩
    rw [hs] at hcon
    exact absurd hcon.1 (by simp)
  · have hs' : trimmed_empty slot = false := by simpa using hs
    rw [if_neg hs]
    by_cases ha : slot.all (fun c => c.isAlphanum || decide (c = '_')) = true
    · rw [if_neg (fun hcontra => hcontra ha)]
      by_cases hl : slot.length > 63
      · rw [if_pos hl]
        refine ⟨⟨fun ⟨cfg, hcfg⟩ => absurd hcfg (by simp), fun hcon => ?_⟩,
          fun _ => rfl⟩
        omega
      · rw [if_neg hl]
        exact ⟨⟨fun _ => ⟨hs', ha, by omega⟩, fun _ => ⟨_, rfl⟩⟩,
          fun hcon => absurd ⟨hs', ha, by omega⟩ hcon⟩
    · rw [if_pos ha]
      exact ⟨⟨fun ⟨cfg, hcfg⟩ => absurd hcfg (by simp),
        fun hcon => absurd hcon.2.1 ha⟩, fun _ => rfl⟩

/-- Claim C9 witness: a valid slot name is accepted; an invalid one is a
Configuration error. -/
theorem C9_slot_name_validation_witness :
    (∃ cfg, ReplicationConfig.new ['d', 'b'] ['p'] ['s', '_', '1'] = .ok cfg)
    ∧ ReplicationConfig.new ['d', 'b'] ['p'] ['s', '!'] = .error .config := by
  constructor
  · exact (C9_slot_name_validation ['d', 'b'] ['p'] ['s', '_', '1']
      (by decide) (by decide)).1.mpr (by decide)
  · exact (C9_slot_name_validation ['d', 'b'] ['p'] ['s', '!']
      (by decide) (by decide)).2 (by decide)

theorem beBytes_length (w v : Nat) : (beBytes w v).length = w := by
  induction w generalizing v with
  | zero => rfl
  | succ n ih => simp [beBytes, ih]

/-- Claim C6: with received_lsn = L > 0 and PostgreSQL timestamp T,
send_feedback emits exactly the 34-byte standby-status frame
0x72 be64(L) be64(L) be64(0) be64(T) 0x00 via put_copy_data followed by
flush; with L = 0 it makes no transport call. -/
theorem C6_feedback_frame (s : ReplicationState) (T : Int) :
    (s.received_lsn = 0 → send_feedback s T = .ok [])
    ∧ (s.received_lsn ≠ 0 →
        send_feedback s T = .ok
          [.put_copy_data (114 :: (beBytes 8 s.received_lsn
              ++ (beBytes 8 s.received_lsn
              ++ (beBytes 8 0 ++ (beBytes 8 (T % (2 ^ 64 : Int)).toNat ++ [0]))))),
           .flush])
    ∧ (∀ L tv : Nat,
        (114 :: (beBytes 8 L ++ (beBytes 8 L ++ (beBytes 8 0
          ++ (beBytes 8 tv ++ [0]))))).length = 34) := by
  refine ⟨fun h => by simp [send_feedback, h], fun h => ?_, fun L tv => by
    simp [beBytes_length]⟩
  unfold send_feedback
  rw [if_neg h]
  unfold BufferWriter.write_u8 BufferWriter.write_u64 BufferWriter.write_i64
    BufferWriter.bytes_written
  simp [beBytes_length, List.take_length]

/-- Claim C6 witness: concrete nonzero and zero LSN states. -/
theorem C6_feedback_frame_witness :
    ((⟨[], 5, 0, false, none⟩ : ReplicationState).received_lsn ≠ 0
      ∧ send_feedback ⟨[], 5, 0, false, none⟩ 7 = .ok
          [.put_copy_data (114 :: (beBytes 8 5 ++ (beBytes 8 5
              ++ (beBytes 8 0 ++ (beBytes 8 ((7 : Int) % (2 ^ 64 : Int)).toNat
                ++ [0]))))),
           .flush])
    ∧ send_feedback ⟨[], 0, 0, false, none⟩ 7 = .ok [] := by
  exact ⟨⟨by decide, (C6_feedback_frame ⟨[], 5, 0, false, none⟩ 7).2.1 (by decide)⟩,
    (C6_feedback_frame ⟨[], 0, 0, false, none⟩ 7).1 (by rfl)⟩

/-- Claim C7: a decoded Insert, Update or Delete whose relation_id is not in
the relation cache reports the unknown relation and returns success with the
session state unchanged. -/
theorem C7_unknown_relation (s : ReplicationState) :
    (∀ rid td st x, s.get_relation rid = none →
      process_replication_message s (.insert rid td st x)
        = (s, [.report_unknown_relation rid], .ok ()))
    ∧ (∀ rid kt otd ntd st x, s.get_relation rid = none →
      process_replication_message s (.update rid kt otd ntd st x)
        = (s, [.report_unknown_relation rid], .ok ()))
    ∧ (∀ rid kt td st x, s.get_relation rid = none →
      process_replication_message s (.delete rid kt td st x)
        = (s, [.report_unknown_relation rid], .ok ())) := by
  refine ⟨?_, ?_, ?_⟩ <;> intros <;> simp [process_replication_message, *]

/-- Claim C7 witness: an Insert for OID 42 against the fresh (empty-cache)
state. -/
theorem C7_unknown_relation_witness :
    ReplicationState.new.get_relation 42 = none
    ∧ process_replication_message ReplicationState.new
        (.insert 42 ⟨0, [], 2⟩ false none)
      = (ReplicationState.new, [.report_unknown_relation 42], .ok ()) :=
  ⟨rfl, (C7_unknown_relation ReplicationState.new).1 42 ⟨0, [], 2⟩ false none rfl⟩

theorem streaming_inv_applyOp (s : ReplicationState) (op : StateOp)
    (h : s.in_streaming_txn = s.streaming_xid.isSome) :
    (applyOp s op).in_streaming_txn = (applyOp s op).streaming_xid.isSome := by
  cases op with
  | updateLsn lsn =>
    simp only [applyOp]
    unfold ReplicationState.update_lsn
    split
    · simpa using h
    · exact h
  | addRelation r =>
    simp only [applyOp]
    simpa [ReplicationState.add_relation] using h
  | dispatch m =>
    simp only [applyOp]
    cases m with
    | insert rid td st x =>
      simp only [process_replication_message]
      cases hr : s.get_relation rid <;> simp only [hr] <;> simpa using h
    | update rid kt otd ntd st x =>
      simp only [process_replication_message]
      cases hr : s.get_relation rid <;> simp only [hr] <;> simpa using h
    | delete rid kt td st x =>
      simp only [process_replication_message]
      cases hr : s.get_relation rid <;> simp only [hr] <;> simpa using h
    | _ =>
      simp [process_replication_message, ReplicationState.add_relation,
        ReplicationState.start_streaming, ReplicationState.stop_streaming, h]

theorem streaming_inv_applyOps (ops : List StateOp) (s : ReplicationState)
    (h : s.in_streaming_txn = s.streaming_xid.isSome) :
    (applyOps s ops).in_streaming_txn = (applyOps s ops).streaming_xid.isSome := by
  induction ops generalizing s with
  | nil => exact h
  | cons op ops ih =>
    exact ih (applyOp s op) (streaming_inv_applyOp s op h)

/-- Claim C8: in every state reachable from ReplicationState::new by the
session operations, in_streaming_txn holds exactly when streaming_xid is
set; StreamStart sets both, StreamStop/StreamCommit/StreamAbort clear both,
and update_lsn / add_relation touch neither field. -/
theorem C8_streaming_flag_invariant :
    (∀ ops : List StateOp,
      (applyOps ReplicationState.new ops).in_streaming_txn
        = (applyOps ReplicationState.new ops).streaming_xid.isSome)
    ∧ (ReplicationState.new.in_streaming_txn = false
        ∧ ReplicationState.new.streaming_xid = none)
    ∧ (∀ (s : ReplicationState) (xid : Nat) (fs : Bool),
        (process_replication_message s (.streamStart xid fs)).1
          = { s with in_streaming_txn := true, streaming_xid := some xid })
    ∧ (∀ s : ReplicationState,
        (process_replication_message s .streamStop).1
          = { s with in_streaming_txn := false, streaming_xid := none })
    ∧ (∀ (s : ReplicationState) (xid flags clsn elsn : Nat) (ts : Int),
        (process_replication_message s (.streamCommit xid flags clsn elsn ts)).1
          = { s with in_streaming_txn := false, streaming_xid := none })
    ∧ (∀ (s : ReplicationState) (xid sub : Nat),
        (process_replication_message s (.streamAbort xid sub)).1
          = { s with in_streaming_txn := false, streaming_xid := none })
    ∧ (∀ (s : ReplicationState) (lsn : Nat),
        (s.update_lsn lsn).in_streaming_txn = s.in_streaming_txn
          ∧ (s.update_lsn lsn).streaming_xid = s.streaming_xid)
    ∧ (∀ (s : ReplicationState) (r : RelationInfo),
        (s.add_relation r).in_streaming_txn = s.in_streaming_txn
          ∧ (s.add_relation r).streaming_xid = s.streaming_xid) := by
  refine ⟨fun ops => streaming_inv_applyOps ops ReplicationState.new rfl,
    ⟨rfl, rfl⟩, fun s xid fs => rfl, fun s => rfl, fun s xid flags clsn elsn ts => rfl,
    fun s xid sub => rfl, fun s lsn => ?_, fun s r => ⟨rfl, rfl⟩⟩
  unfold ReplicationState.update_lsn
  split <;> exact ⟨rfl, rfl⟩

theorem update_lsn_zero (s : ReplicationState) : s.update_lsn 0 = s := rfl

/-- Claim C10: process_wal_message rejects frames shorter than 25 bytes with
a Protocol error leaving the state untouched, and rejects 25-byte frames
(empty payload) with a Protocol error after the LSN watermark has absorbed
the header's data_start; in both cases no parser invocation and no transport
call happens. -/
theorem C10_short_wal_frames (s : ReplicationState) (data : List Nat) (T : Int) :
    (data.length < 25 → process_wal_message s data T = (s, [], .error .protocol))
    ∧ (data.length = 25 →
        process_wal_message s data T
          = (s.update_lsn (beVal (slice data 1 8)), [], .error .protocol)) := by
  constructor
  · intro h
    unfold process_wal_message
    rw [if_pos h]
  · intro h
    unfold process_wal_message
    rw [if_neg (by omega)]
    unfold skip_message_type
    obtain ⟨b, hb⟩ := get?_some_of_lt (show 0 < data.length by omega)
    rw [read_u8_eq hb]
    unfold read_u64 read_i64 read_int
    norm_num
    rw [read_uint_eq (show 1 + 8 ≤ data.length by omega)]
    norm_num
    rw [read_uint_eq (show 9 + 8 ≤ data.length by omega)]
    norm_num
    rw [read_uint_eq (show 17 + 8 ≤ data.length by omega)]
    norm_num
    have hrem : remaining data 25 = 0 := by
      unfold remaining
      omega
    simp only [hrem]
    by_cases hds : beVal (slice data 1 8) > 0
    · simp [hds]
    · have hz : beVal (slice data 1 8) = 0 := by omega
      simp [hds, hz, update_lsn_zero]

theorem parse_insert_shape (d : List Nat) (m : ReplicationMessage)
    (h : parse_insert_message d 1 = .ok m) :
    (d.get? 5 = some 78 → ∃ td, m = .insert (beVal (slice d 1 4)) td false none)
    ∧ (∀ b, d.get? 5 = some b → b ≠ 78 →
        ∃ td, m = .insert (beVal (slice d 5 4)) td true
          (some (beVal (slice d 1 4)))) := by
  unfold parse_insert_message at h
  by_cases hb5 : has_bytes d 1 5 = true
  case neg =>
    rw [if_pos (by simpa using hb5)] at h
    exact absurd h (by simp)
  case pos =>
  have hlen : 6 ≤ d.length := by
    have := has_bytes_true.mp hb5
    omega
  rw [if_neg (not_not_intro hb5)] at h
  unfold read_u32 at h
  rw [read_uint_eq (show (1 : Nat) + 4 ≤ d.length by omega)] at h
  norm_num at h
  obtain ⟨b, hb⟩ := get?_some_of_lt (show 5 < d.length by omega)
  rw [peek_u8_eq hb] at h
  by_cases hb78 : b = 78
  · subst hb78
    norm_num [read_u8_eq hb] at h
    rcases hpt : parse_tuple_data d 6 with e | ⟨td, q⟩
    · rw [hpt] at h
      exact absurd h (by simp)
    · rw [hpt] at h
      norm_num at h
      refine ⟨fun _ => ⟨td, h.symm⟩, fun b' hb' hne => ?_⟩
      exact absurd (Option.some.inj (hb.symm.trans hb')).symm hne
  · norm_num [hb78] at h
    rcases hr : read_uint d 5 4 with e | ⟨rid, p2⟩
    · rw [hr] at h
      exact absurd h (by simp)
    · rw [hr] at h
      obtain ⟨hrv, hrp, _⟩ := read_uint_ok hr
      subst hrv hrp
      norm_num at h
      rcases hm : d.get? 9 with _ | mk
      · rw [show read_u8 d 9 = .error .parse by unfold read_u8; rw [hm]] at h
        exact absurd h (by simp)
      · rw [read_u8_eq hm] at h
        norm_num at h
        by_cases hmk : mk = 78
        · subst hmk
          norm_num at h
          rcases hpt : parse_tuple_data d 10 with e | ⟨td, q⟩
          · rw [hpt] at h
            exact absurd h (by simp)
          · rw [hpt] at h
            norm_num at h
            refine ⟨fun h78 => ?_, fun b' hb' _ => ⟨td, h.symm⟩⟩
            exact absurd (Option.some.inj (hb.symm.trans h78)) hb78
        · norm_num [hmk] at h
          exact absurd h (by simp)

theorem parse_update_tail_shape (d : List Nat) (rid : Nat) (is : Bool)
    (xid : Option Nat) (p : Nat) (m : ReplicationMessage)
    (h : parse_update_tail d rid is xid p = .ok m) :
    ∃ kt otd ntd, m = .update rid kt otd ntd is xid := by
  unfold parse_update_tail at h
  rcases hm : read_u8 d p with e | ⟨marker, p1⟩
  · rw [hm] at h
    exact absurd h (by simp)
  · rw [hm] at h
    norm_num at h
    by_cases hko : marker = 75 ∨ marker = 79
    · rw [if_pos hko] at h
      rcases hot : parse_tuple_data d p1 with e | ⟨otd, p2⟩
      · rw [hot] at h
        exact absurd h (by simp)
      · rw [hot] at h
        norm_num at h
        rcases hm2 : read_u8 d p2 with e | ⟨nm, p3⟩
        · rw [hm2] at h
          exact absurd h (by simp)
        · rw [hm2] at h
          norm_num at h
          by_cases hnm : nm = 78
          · subst hnm
            norm_num at h
            rcases hnt : parse_tuple_data d p3 with e | ⟨ntd, p4⟩
            · rw [hnt] at h
              exact absurd h (by simp)
            · rw [hnt] at h
              norm_num at h
              exact ⟨some marker, some otd, ntd, h.symm⟩
          · norm_num [hnm] at h
            exact absurd h (by simp)
    · rw [if_neg hko] at h
      by_cases hn : marker = 78
      · rw [if_pos hn] at h
        rcases hnt : parse_tuple_data d p1 with e | ⟨ntd, p2⟩
        · rw [hnt] at h
          exact absurd h (by simp)
        · rw [hnt] at h
          norm_num at h
          exact ⟨none, none, ntd, h.symm⟩
      · rw [if_neg hn] at h
        exact absurd h (by simp)

theorem parse_update_shape (d : List Nat) (m : ReplicationMessage)
    (h : parse_update_message d 1 = .ok m) :
    (∀ b, d.get? 5 = some b → (b = 75 ∨ b = 79 ∨ b = 78) →
      ∃ kt otd ntd, m = .update (beVal (slice d 1 4)) kt otd ntd false none)
    ∧ (∀ b, d.get? 5 = some b → ¬ (b = 75 ∨ b = 79 ∨ b = 78) →
      ∃ kt otd ntd, m = .update (beVal (slice d 5 4)) kt otd ntd true
        (some (beVal (slice d 1 4)))) := by
  unfold parse_update_message at h
  by_cases hb5 : has_bytes d 1 5 = true
  case neg =>
    rw [if_pos (by simpa using hb5)] at h
    exact absurd h (by simp)
  case pos =>
  have hlen : 6 ≤ d.length := by
    have := has_bytes_true.mp hb5
    omega
  rw [if_neg (not_not_intro hb5)] at h
  unfold read_u32 at h
  rw [read_uint_eq (show (1 : Nat) + 4 ≤ d.length by omega)] at h
  norm_num at h
  obtain ⟨b, hb⟩ := get?_some_of_lt (show 5 < d.length by omega)
  rw [peek_u8_eq hb] at h
  norm_num at h
  by_cases hin : b = 75 ∨ b = 79 ∨ b = 78
  · rw [if_pos hin] at h
    obtain ⟨kt, otd, ntd, hm⟩ := parse_update_tail_shape _ _ _ _ _ _ h
    refine ⟨fun b' hb' _ => ⟨kt, otd, ntd, hm⟩, fun b' hb' hnot => ?_⟩
    rw [Option.some.inj (hb.symm.trans hb')] at hin
    exact absurd hin hnot
  · rw [if_neg hin] at h
    rcases hr : read_uint d 5 4 with e | ⟨rid, p2⟩
    · rw [hr] at h
      exact absurd h (by simp)
    · rw [hr] at h
      obtain ⟨hrv, hrp, _⟩ := read_uint_ok hr
      subst hrv hrp
      norm_num at h
      obtain ⟨kt, otd, ntd, hm⟩ := parse_update_tail_shape _ _ _ _ _ _ h
      refine ⟨fun b' hb' hmem => ?_, fun b' hb' _ => ⟨kt, otd, ntd, hm⟩⟩
      rw [Option.some.inj (hb.symm.trans hb')] at hin
      exact absurd hmem hin

theorem parse_delete_shape (d : List Nat) (m : ReplicationMessage)
    (h : parse_delete_message d 1 = .ok m) :
    (∀ b, d.get? 5 = some b → (b = 75 ∨ b = 79) →
      ∃ kt td, m = .delete (beVal (slice d 1 4)) kt td false none)
    ∧ (∀ b, d.get? 5 = some b → ¬ (b = 75 ∨ b = 79) →
      ∃ kt td, m = .delete (beVal (slice d 5 4)) kt td true
        (some (beVal (slice d 1 4)))) := by
  unfold parse_delete_message at h
  by_cases hb5 : has_bytes d 1 5 = true
  case neg =>
    rw [if_pos (by simpa using hb5)] at h
    exact absurd h (by simp)
  case pos =>
  have hlen : 6 ≤ d.length := by
    have := has_bytes_true.mp hb5
    omega
  rw [if_neg (not_not_intro hb5)] at h
  unfold read_u32 at h
  rw [read_uint_eq (show (1 : Nat) + 4 ≤ d.length by omega)] at h
  norm_num at h
  obtain ⟨b, hb⟩ := get?_some_of_lt (show 5 < d.length by omega)
  rw [peek_u8_eq hb] at h
  norm_num at h
  by_cases hin : b = 75 ∨ b = 79
  · rw [if_pos hin] at h
    rw [read_u8_eq hb] at h
    norm_num at h
    rcases hpt : parse_tuple_data d 6 with e | ⟨td, q⟩
    · rw [hpt] at h
      exact absurd h (by simp)
    · rw [hpt] at h
      norm_num at h
      refine ⟨fun b' hb' _ => ⟨b, td, h.symm⟩, fun b' hb' hnot => ?_⟩
      rw [Option.some.inj (hb.symm.trans hb')] at hin
      exact absurd hin hnot
  · rw [if_neg hin] at h
    rcases hr : read_uint d 5 4 with e | ⟨rid, p2⟩
    · rw [hr] at h
      exact absurd h (by simp)
    · rw [hr] at h
      obtain ⟨hrv, hrp, _⟩ := read_uint_ok hr
      subst hrv hrp
      norm_num at h
      rcases hk : d.get? 9 with _ | kb
      · rw [show read_u8 d 9 = .error .parse by unfold read_u8; rw [hk]] at h
        exact absurd h (by simp)
      · rw [read_u8_eq hk] at h
        norm_num at h
        rcases hpt : parse_tuple_data d 10 with e | ⟨td, q⟩
        · rw [hpt] at h
          exact absurd h (by simp)
        · rw [hpt] at h
          norm_num at h
          refine ⟨fun b' hb' hmem => ?_, fun b' hb' _ => ⟨kb, td, h.symm⟩⟩
          rw [Option.some.inj (hb.symm.trans hb')] at hin
          exact absurd hmem hin

theorem parse_wal_dispatch_insert {buf : List Nat} (hb : buf.get? 0 = some 73)
    (f : Bool) : parse_wal_message buf f = parse_insert_message buf 1 := by
  unfold parse_wal_message skip_message_type
  rw [read_u8_eq hb]
  norm_num

theorem parse_wal_dispatch_update {buf : List Nat} (hb : buf.get? 0 = some 85)
    (f : Bool) : parse_wal_message buf f = parse_update_message buf 1 := by
  unfold parse_wal_message skip_message_type
  rw [read_u8_eq hb]
  norm_num

theorem parse_wal_dispatch_delete {buf : List Nat} (hb : buf.get? 0 = some 68)
    (f : Bool) : parse_wal_message buf f = parse_delete_message buf 1 := by
  unfold parse_wal_message skip_message_type
  rw [read_u8_eq hb]
  norm_num

/-- Claim C1: Insert/Update/Delete parses are independent of the
in_streaming_txn argument, and the streaming form is discriminated solely by
the byte after the leading u32: marker byte present means non-streaming
(relation_id = leading u32, no XID), anything else means streaming (XID =
leading u32, relation_id = following u32). -/
theorem C1_dml_streaming_disambiguation :
    (∀ (buf : List Nat) (t : Nat), buf.get? 0 = some t →
      (t = 73 ∨ t = 85 ∨ t = 68) →
      parse_wal_message buf true = parse_wal_message buf false)
    ∧ (∀ (buf : List Nat) (f : Bool) (m : ReplicationMessage),
        buf.get? 0 = some 73 → parse_wal_message buf f = .ok m →
        (buf.get? 5 = some 78 →
          ∃ td, m = .insert (beVal (slice buf 1 4)) td false none)
        ∧ (∀ b, buf.get? 5 = some b → b ≠ 78 →
          ∃ td, m = .insert (beVal (slice buf 5 4)) td true
            (some (beVal (slice buf 1 4)))))
    ∧ (∀ (buf : List Nat) (f : Bool) (m : ReplicationMessage),
        buf.get? 0 = some 85 → parse_wal_message buf f = .ok m →
        (∀ b, buf.get? 5 = some b → (b = 75 ∨ b = 79 ∨ b = 78) →
          ∃ kt otd ntd, m = .update (beVal (slice buf 1 4)) kt otd ntd false none)
        ∧ (∀ b, buf.get? 5 = some b → ¬ (b = 75 ∨ b = 79 ∨ b = 78) →
          ∃ kt otd ntd, m = .update (beVal (slice buf 5 4)) kt otd ntd true
            (some (beVal (slice buf 1 4)))))
    ∧ (∀ (buf : List Nat) (f : Bool) (m : ReplicationMessage),
        buf.get? 0 = some 68 → parse_wal_message buf f = .ok m →
        (∀ b, buf.get? 5 = some b → (b = 75 ∨ b = 79) →
          ∃ kt td, m = .delete (beVal (slice buf 1 4)) kt td false none)
        ∧ (∀ b, buf.get? 5 = some b → ¬ (b = 75 ∨ b = 79) →
          ∃ kt td, m = .delete (beVal (slice buf 5 4)) kt td true
            (some (beVal (slice buf 1 4))))) := by
  refine ⟨fun buf t hb ht => ?_, fun buf f m hb h => ?_, fun buf f m hb h => ?_,
    fun buf f m hb h => ?_⟩
  · rcases ht with rfl | rfl | rfl
    · rw [parse_wal_dispatch_insert hb, parse_wal_dispatch_insert hb]
    · rw [parse_wal_dispatch_update hb, parse_wal_dispatch_update hb]
    · rw [parse_wal_dispatch_delete hb, parse_wal_dispatch_delete hb]
  · rw [parse_wal_dispatch_insert hb] at h
    exact parse_insert_shape buf m h
  · rw [parse_wal_dispatch_update hb] at h
    exact parse_update_shape buf m h
  · rw [parse_wal_dispatch_delete hb] at h
    exact parse_delete_shape buf m h

/-- Claim C1 witness: a non-streaming and a streaming Insert instance. -/
theorem C1_dml_streaming_disambiguation_witness :
    parse_wal_message [73, 0, 0, 0, 16, 78, 0, 0] true
      = parse_wal_message [73, 0, 0, 0, 16, 78, 0, 0] false
    ∧ (∃ td, (ReplicationMessage.insert 16 ⟨0, [], 2⟩ false none)
        = .insert (beVal (slice [73, 0, 0, 0, 16, 78, 0, 0] 1 4)) td false none)
    ∧ (∃ td, (ReplicationMessage.insert 16 ⟨0, [], 2⟩ true (some 99))
        = .insert (beVal (slice [73, 0, 0, 0, 99, 0, 0, 0, 16, 78, 0, 0] 5 4)) td
            true (some (beVal (slice [73, 0, 0, 0, 99, 0, 0, 0, 16, 78, 0, 0] 1 4)))) := by
  refine ⟨C1_dml_streaming_disambiguation.1 [73, 0, 0, 0, 16, 78, 0, 0] 73 rfl
    (Or.inl rfl), ?_, ?_⟩
  · exact (C1_dml_streaming_disambiguation.2.1 [73, 0, 0, 0, 16, 78, 0, 0] false
      (.insert 16 ⟨0, [], 2⟩ false none) rfl (by decide)).1 rfl
  · exact (C1_dml_streaming_disambiguation.2.1 [73, 0, 0, 0, 99, 0, 0, 0, 16, 78, 0, 0]
      false (.insert 16 ⟨0, [], 2⟩ true (some 99)) rfl (by decide)).2 0 rfl (by decide)

theorem getD_of_get? {d : List Nat} {p b : Nat} (h : d.get? p = some b) :
    d.getD p 0 = b := by
  rw [List.getD_eq_getElem?_getD, ← List.get?_eq_getElem?, h]
  rfl

theorem relids_spec_succ (d : List Nat) (p n : Nat) :
    relids_spec d p (n + 1) = beVal (slice d p 4) :: relids_spec d (p + 4) n := by
  unfold relids_spec
  rw [List.range_succ_eq_map]
  simp only [List.map_cons, List.map_map, Nat.mul_zero, Nat.add_zero]
  congr 1
  refine List.map_congr_left fun i _ => ?_
  have harg : p + 4 * (i + 1) = p + 4 + 4 * i := by ring
  simp [Function.comp, Nat.succ_eq_add_one, harg]

theorem parse_truncate_relids_ok (d : List Nat) (n p : Nat)
    (h : p + 4 * n ≤ d.length) :
    parse_truncate_relids d n p = .ok (relids_spec d p n, p + 4 * n) := by
  induction n generalizing p with
  | zero => simp [parse_truncate_relids, relids_spec]
  | succ k ih =>
    unfold parse_truncate_relids
    rw [if_neg (not_not_intro (has_bytes_true.mpr (by omega)))]
    unfold read_u32
    rw [read_uint_eq (by omega : p + 4 ≤ d.length)]
    norm_num
    rw [ih (p + 4) (by omega)]
    norm_num [relids_spec_succ]
    omega

theorem parse_truncate_relids_err (d : List Nat) (n p : Nat)
    (hp : p ≤ d.length) (h : d.length < p + 4 * n) :
    parse_truncate_relids d n p = .error .parse := by
  induction n generalizing p with
  | zero =>
    exact absurd h (by omega)
  | succ k ih =>
    unfold parse_truncate_relids
    by_cases hhb : has_bytes d p 4 = true
    · rw [if_neg (not_not_intro hhb)]
      have h4 : p + 4 ≤ d.length := by
        have := has_bytes_true.mp hhb
        omega
      unfold read_u32
      rw [read_uint_eq h4]
      norm_num
      rw [ih (p + 4) h4 (by omega)]
    · rw [if_pos (by simpa using hhb)]

theorem parse_wal_dispatch_truncate {buf : List Nat} (hb : buf.get? 0 = some 84)
    (f : Bool) : parse_wal_message buf f = parse_truncate_message buf 1 := by
  unfold parse_wal_message skip_message_type
  rw [read_u8_eq hb]
  norm_num

/-- Claim C2: for tag 'T' with a 9-byte header available, the parser reads
two u32s and decides by the remaining byte count r: if r = 1 + 4·second it
returns the streaming Truncate (xid = first u32, second-u32 relation IDs,
flags octet at offset 9); otherwise it rewinds 4 bytes, re-reads offset 5 as
the flags octet and returns the non-streaming Truncate with first-u32
relation IDs, erroring with Parse when the ID list is truncated. -/
theorem C2_truncate_disambiguation (buf : List Nat) (f : Bool)
    (h0 : buf.get? 0 = some 84) (hlen : 10 ≤ buf.length) :
    (buf.length - 9 = 1 + beVal (slice buf 5 4) * 4 →
      parse_wal_message buf f
        = .ok (.truncate (relids_spec buf 10 (beVal (slice buf 5 4)))
            (toSigned 8 (buf.getD 9 0)) true (some (beVal (slice buf 1 4)))))
    ∧ (buf.length - 9 ≠ 1 + beVal (slice buf 5 4) * 4 →
        (buf.length < 6 + 4 * beVal (slice buf 1 4) →
          parse_wal_message buf f = .error .parse)
        ∧ (6 + 4 * beVal (slice buf 1 4) ≤ buf.length →
          parse_wal_message buf f
            = .ok (.truncate (relids_spec buf 6 (beVal (slice buf 1 4)))
                (toSigned 8 (buf.getD 5 0)) false none))) := by
  rw [parse_wal_dispatch_truncate h0 f]
  unfold parse_truncate_message
  rw [if_neg (not_not_intro (has_bytes_true.mpr (by omega : 9 ≤ buf.length - 1)))]
  unfold read_u32
  rw [read_uint_eq (by omega : 1 + 4 ≤ buf.length)]
  norm_num
  rw [read_uint_eq (by omega : 5 + 4 ≤ buf.length)]
  norm_num
  constructor
  · intro hstream
    rw [if_pos (by unfold remaining; omega)]
    norm_num
    obtain ⟨b9, hb9⟩ := get?_some_of_lt (show 9 < buf.length by omega)
    rw [read_u8_eq hb9]
    norm_num
    rw [parse_truncate_relids_ok buf _ 10 (by omega)]
    norm_num [getD_of_get? hb9]
    rw [show buf[9]?.getD 0 = b9 from by rw [← List.get?_eq_getElem?, hb9]; rfl]
  · intro hns
    rw [if_neg (by unfold remaining; omega)]
    unfold set_position
    rw [if_pos (by omega : 9 - 4 ≤ buf.length)]
    norm_num
    obtain ⟨b5, hb5⟩ := get?_some_of_lt (show 5 < buf.length by omega)
    rw [read_u8_eq hb5]
    norm_num
    constructor
    · intro htrunc
      rw [parse_truncate_relids_err buf _ 6 (by omega) (by omega)]
    · intro hfit
      rw [parse_truncate_relids_ok buf _ 6 (by omega)]
      norm_num [getD_of_get? hb5]
      rw [show buf[5]?.getD 0 = b5 from by rw [← List.get?_eq_getElem?, hb5]; rfl]

/-- Claim C2 witness: a streaming and a non-streaming Truncate buffer. -/
theorem C2_truncate_disambiguation_witness :
    parse_wal_message [84, 0, 0, 0, 7, 0, 0, 0, 2, 9, 0, 0, 0, 5, 0, 0, 0, 6] false
      = .ok (.truncate [5, 6] 9 true (some 7))
    ∧ parse_wal_message [84, 0, 0, 0, 3, 0, 0, 0, 0, 1, 0, 0, 0, 2, 0, 0, 0, 3] false
      = .ok (.truncate [1, 2, 3] 0 false none) := by
  constructor
  · have h := (C2_truncate_disambiguation
      [84, 0, 0, 0, 7, 0, 0, 0, 2, 9, 0, 0, 0, 5, 0, 0, 0, 6] false
      (by rfl) (by norm_num)).1 (by norm_num [slice, beVal])
    rw [h]
    norm_num [relids_spec, slice, beVal, toSigned]
    decide
  · have h := ((C2_truncate_disambiguation
      [84, 0, 0, 0, 3, 0, 0, 0, 0, 1, 0, 0, 0, 2, 0, 0, 0, 3] false
      (by rfl) (by norm_num)).2 (by norm_num [slice, beVal])).2
      (by norm_num [slice, beVal])
    rw [h]
    norm_num [relids_spec, slice, beVal, toSigned]
    decide

theorem slice_take {d : List Nat} {k p n : Nat} (h : p + n ≤ k) :
    slice (d.take k) p n = slice d p n := by
  unfold slice
  rw [List.drop_take, List.take_take]
  congr 1
  omega

theorem frames_read_u8 : Frames read_u8 := by
  intro d p a q h
  unfold read_u8 at h
  rcases hg : d.get? p with _ | b
  · rw [hg] at h
    exact absurd h (by simp)
  · rw [hg] at h
    norm_num at h
    obtain ⟨hab, hq⟩ := h
    subst hab hq
    refine ⟨by omega, fun k hpk hkd => ⟨fun hk => ?_, fun hk => ?_⟩⟩
    · unfold read_u8
      rw [List.get?_take_eq_none (by omega)]
    · unfold read_u8
      rw [List.get?_take (by omega), hg]

theorem frames_read_uint (n : Nat) : Frames (fun d p => read_uint d p n) := by
  intro d p a q h
  change read_uint d p n = _ at h
  obtain ⟨hv, hq, hle⟩ := read_uint_ok h
  subst hv hq
  refine ⟨by omega, fun k hpk hkd => ⟨fun hk => ?_, fun hk => ?_⟩⟩
  · show read_uint (d.take k) p n = Except.error RError.parse
    unfold read_uint
    rw [if_neg (by rw [List.length_take]; omega)]
  · show read_uint (d.take k) p n
      = Except.ok (beVal (slice d p n), p + n)
    rw [read_uint_eq (by rw [List.length_take]; omega), slice_take (by omega)]

theorem frames_read_int (n : Nat) : Frames (fun d p => read_int d p n) := by
  intro d p a q h
  change read_int d p n = _ at h
  unfold read_int at h
  rcases hu : read_uint d p n with e | ⟨v, q'⟩
  · rw [hu] at h
    exact absurd h (by simp)
  · rw [hu] at h
    norm_num at h
    obtain ⟨hab, hq⟩ := h
    subst hab hq
    obtain ⟨hpq, hfr⟩ := frames_read_uint n d p v q' hu
    refine ⟨hpq, fun k hpk hkd => ⟨fun hk => ?_, fun hk => ?_⟩⟩
    · have h1 : read_uint (d.take k) p n = Except.error RError.parse :=
        (hfr k hpk hkd).1 hk
      show read_int (d.take k) p n = Except.error RError.parse
      unfold read_int
      rw [h1]
    · have h1 : read_uint (d.take k) p n = Except.ok (v, q') :=
        (hfr k hpk hkd).2 hk
      show read_int (d.take k) p n = Except.ok (toSigned (n * 8) v, q')
      unfold read_int
      rw [h1]

theorem scan_zero_take {l : List Nat} {off : Nat} (h : scan_zero l = some off) :
    off < l.length
    ∧ ∀ m, (m ≤ off → scan_zero (l.take m) = none)
        ∧ (off < m → scan_zero (l.take m) = some off) := by
  induction l generalizing off with
  | nil => exact absurd h (by simp [scan_zero])
  | cons b rest ih =>
    unfold scan_zero at h
    by_cases hb : b = 0
    · rw [if_pos hb] at h
      norm_num at h
      subst h
      refine ⟨by simp, fun m => ⟨fun hm => ?_, fun hm => ?_⟩⟩
      · interval_cases m
        simp [scan_zero]
      · rcases m with _ | m'
        · omega
        · simp only [List.take_succ_cons]
          unfold scan_zero
          rw [if_pos hb]
    · rw [if_neg hb] at h
      rcases ho : scan_zero rest with _ | off'
      · rw [ho] at h
        exact absurd h (by simp)
      · rw [ho] at h
        norm_num at h
        subst h
        obtain ⟨hlen, hm⟩ := ih ho
        refine ⟨by simp; omega, fun m => ⟨fun hmo => ?_, fun hmo => ?_⟩⟩
        · rcases m with _ | m'
          · simp [scan_zero]
          · simp only [List.take_succ_cons]
            unfold scan_zero
            rw [if_neg hb, (hm m').1 (by omega)]
            rfl
        · rcases m with _ | m'
          · omega
          · simp only [List.take_succ_cons]
            unfold scan_zero
            rw [if_neg hb, (hm m').2 (by omega)]
            rfl

theorem frames_cstr : Frames read_null_terminated_string := by
  intro d p a q h
  unfold read_null_terminated_string at h
  rcases hs : scan_zero (d.drop p) with _ | off
  · rw [hs] at h
    exact absurd h (by simp)
  · rw [hs] at h
    norm_num at h
    obtain ⟨hab, hq⟩ := h
    subst hab hq
    obtain ⟨hlen, hm⟩ := scan_zero_take hs
    rw [List.length_drop] at hlen
    refine ⟨by omega, fun k hpk hkd => ⟨fun hk => ?_, fun hk => ?_⟩⟩
    · unfold read_null_terminated_string
      rw [List.drop_take, (hm (k - p)).1 (by omega)]
    · unfold read_null_terminated_string
      rw [List.drop_take, (hm (k - p)).2 (by omega)]
      norm_num
      rw [slice_take (show p + off ≤ k by omega)]

theorem frames_lps : Frames read_length_prefixed_string := by
  intro d p a q h
  unfold read_length_prefixed_string at h
  rcases hi : read_i32 d p with e | ⟨L, q1⟩
  · rw [hi] at h
    exact absurd h (by simp)
  · rw [hi] at h
    have hq1 : q1 = p + 4 := by
      unfold read_i32 read_int at hi
      rcases hu : read_uint d p 4 with e | ⟨v, q2⟩
      · rw [hu] at hi
        exact absurd hi (by simp)
      · rw [hu] at hi
        norm_num at hi
        obtain ⟨_, hq2⟩ := hi
        obtain ⟨_, hq2', _⟩ := read_uint_ok hu
        omega
    subst hq1
    unfold read_i32 at hi
    obtain ⟨hpq1, hfri⟩ := frames_read_int 4 d p L (p + 4) hi
    by_cases hL0 : L < 0
    · norm_num [hL0] at h
      exact absurd h (by simp)
    · by_cases hrem : d.length - (p + 4) < L.toNat
      · norm_num [hL0, hrem] at h
        exact absurd h (by simp)
      · norm_num [hL0, hrem] at h
        obtain ⟨hab, hq⟩ := h
        subst hab hq
        refine ⟨by omega, fun k hpk hkd => ⟨fun hk => ?_, fun hk => ?_⟩⟩
        · unfold read_length_prefixed_string read_i32
          by_cases hk4 : k < p + 4
          · have h1 : read_int (d.take k) p 4 = Except.error RError.parse :=
              (hfri k hpk hkd).1 hk4
            rw [h1]
          · have h1 : read_int (d.take k) p 4 = Except.ok (L, p + 4) :=
              (hfri k hpk hkd).2 (by omega)
            simp only [h1]
            rw [if_neg hL0, if_pos (by rw [List.length_take]; omega)]
        · unfold read_length_prefixed_string read_i32
          have h1 : read_int (d.take k) p 4 = Except.ok (L, p + 4) :=
            (hfri k hpk hkd).2 (by omega)
          simp only [h1]
          rw [if_neg hL0, if_neg (by rw [List.length_take]; omega),
            slice_take (show p + 4 + L.toNat ≤ k by omega)]

theorem read_u8_ok {d : List Nat} {p b q : Nat} (h : read_u8 d p = .ok (b, q)) :
    d.get? p = some b ∧ q = p + 1 := by
  unfold read_u8 at h
  rcases hg : d.get? p with _ | c
  · rw [hg] at h
    exact absurd h (by simp)
  · rw [hg] at h
    norm_num at h
    exact ⟨by rw [h.1], h.2.symm⟩

theorem frames_parse_tuple_columns (n : Nat) :
    Frames (fun d p => parse_tuple_columns d n p) := by
  induction n with
  | zero =>
    intro d p a q h
    change parse_tuple_columns d 0 p = _ at h
    unfold parse_tuple_columns at h
    norm_num at h
    obtain ⟨ha, hq⟩ := h
    subst ha hq
    exact ⟨le_refl p, fun k hpk hkd =>
      ⟨fun hk => absurd hk (by omega), fun hk => by
        show parse_tuple_columns (d.take k) 0 p = _
        unfold parse_tuple_columns
        rfl⟩⟩
  | succ m ih =>
    intro d p a q h
    change parse_tuple_columns d (m + 1) p = _ at h
    unfold parse_tuple_columns at h
    by_cases hhb : has_bytes d p 1 = true
    case neg =>
      rw [if_pos (by simpa using hhb)] at h
      exact absurd h (by simp)
    rw [if_neg (not_not_intro hhb)] at h
    rcases hr : read_u8 d p with e | ⟨t, p1⟩
    · rw [hr] at h
      exact absurd h (by simp)
    rw [hr] at h
    norm_num at h
    obtain ⟨hgp, hp1⟩ := read_u8_ok hr
    subst hp1
    obtain ⟨_, hfr8⟩ := frames_read_u8 d p t (p + 1) hr
    by_cases ht110 : t = 110
    · rw [if_pos ht110] at h
      rcases hrec : parse_tuple_columns d m (p + 1) with e | ⟨rest, p2⟩
      · rw [hrec] at h
        exact absurd h (by simp)
      rw [hrec] at h
      norm_num at h
      obtain ⟨ha, hq⟩ := h
      subst ha hq
      obtain ⟨hp2, hfrrec⟩ := ih d (p + 1) rest p2 hrec
      refine ⟨by omega, fun k hpk hkd => ⟨fun hk => ?_, fun hk => ?_⟩⟩
      · show parse_tuple_columns (d.take k) (m + 1) p = _
        unfold parse_tuple_columns
        by_cases hkp : k ≤ p
        · rw [if_pos (by simp [has_bytes, List.length_take]; omega)]
        · rw [if_neg (not_not_intro (by simp [has_bytes, List.length_take]; omega))]
          have h8 : read_u8 (d.take k) p = .ok (t, p + 1) :=
            (hfr8 k hpk hkd).2 (by omega)
          rw [h8]
          norm_num [ht110]
          have hrk : parse_tuple_columns (d.take k) m (p + 1)
              = Except.error RError.parse :=
            (hfrrec k (by omega) hkd).1 hk
          rw [hrk]
      · show parse_tuple_columns (d.take k) (m + 1) p = _
        unfold parse_tuple_columns
        rw [if_neg (not_not_intro (by simp [has_bytes, List.length_take]; omega))]
        have h8 : read_u8 (d.take k) p = .ok (t, p + 1) :=
          (hfr8 k hpk hkd).2 (by omega)
        rw [h8]
        norm_num [ht110]
        have hrk : parse_tuple_columns (d.take k) m (p + 1) = .ok (rest, p2) :=
          (hfrrec k (by omega) hkd).2 (by omega)
        rw [hrk]
    · rw [if_neg ht110] at h
      by_cases ht117 : t = 117
      · rw [if_pos ht117] at h
        rcases hrec : parse_tuple_columns d m (p + 1) with e | ⟨rest, p2⟩
        · rw [hrec] at h
          exact absurd h (by simp)
        rw [hrec] at h
        norm_num at h
        obtain ⟨ha, hq⟩ := h
        subst ha hq
        obtain ⟨hp2, hfrrec⟩ := ih d (p + 1) rest p2 hrec
        refine ⟨by omega, fun k hpk hkd => ⟨fun hk => ?_, fun hk => ?_⟩⟩
        · show parse_tuple_columns (d.take k) (m + 1) p = _
          unfold parse_tuple_columns
          by_cases hkp : k ≤ p
          · rw [if_pos (by simp [has_bytes, List.length_take]; omega)]
          · rw [if_neg (not_not_intro (by simp [has_bytes, List.length_take]; omega))]
            have h8 : read_u8 (d.take k) p = .ok (t, p + 1) :=
              (hfr8 k hpk hkd).2 (by omega)
            rw [h8]
            norm_num [ht110, ht117]
            have hrk : parse_tuple_columns (d.take k) m (p + 1)
                = Except.error RError.parse :=
              (hfrrec k (by omega) hkd).1 hk
            rw [hrk]
        · show parse_tuple_columns (d.take k) (m + 1) p = _
          unfold parse_tuple_columns
          rw [if_neg (not_not_intro (by simp [has_bytes, List.length_take]; omega))]
          have h8 : read_u8 (d.take k) p = .ok (t, p + 1) :=
            (hfr8 k hpk hkd).2 (by omega)
          rw [h8]
          norm_num [ht110, ht117]
          have hrk : parse_tuple_columns (d.take k) m (p + 1) = .ok (rest, p2) :=
            (hfrrec k (by omega) hkd).2 (by omega)
          rw [hrk]
      · rw [if_neg ht117] at h
        by_cases ht116 : t = 116
        · rw [if_pos ht116] at h
          rcases hlp : read_length_prefixed_string d (p + 1) with e | ⟨text, p2⟩
          · rw [hlp] at h
            exact absurd h (by simp)
          rw [hlp] at h
          norm_num at h
          obtain ⟨hp1p2, hfrlp⟩ := frames_lps d (p + 1) text p2 hlp
          rcases hrec : parse_tuple_columns d m p2 with e | ⟨rest, p3⟩
          · rw [hrec] at h
            exact absurd h (by simp)
          rw [hrec] at h
          norm_num at h
          obtain ⟨ha, hq⟩ := h
          subst ha hq
          obtain ⟨hp3, hfrrec⟩ := ih d p2 rest p3 hrec
          refine ⟨by omega, fun k hpk hkd => ⟨fun hk => ?_, fun hk => ?_⟩⟩
          · show parse_tuple_columns (d.take k) (m + 1) p = _
            unfold parse_tuple_columns
            by_cases hkp : k ≤ p
            · rw [if_pos (by simp [has_bytes, List.length_take]; omega)]
            · rw [if_neg (not_not_intro (by simp [has_bytes, List.length_take]; omega))]
              have h8 : read_u8 (d.take k) p = .ok (t, p + 1) :=
                (hfr8 k hpk hkd).2 (by omega)
              rw [h8]
              norm_num [ht110, ht117, ht116]
              by_cases hk2 : k < p2
              · have hlk : read_length_prefixed_string (d.take k) (p + 1)
                    = Except.error RError.parse :=
                  (hfrlp k (by omega) hkd).1 hk2
                rw [hlk]
              · have hlk : read_length_prefixed_string (d.take k) (p + 1)
                    = .ok (text, p2) :=
                  (hfrlp k (by omega) hkd).2 (by omega)
                rw [hlk]
                norm_num
                have hrk : parse_tuple_columns (d.take k) m p2
                    = Except.error RError.parse :=
                  (hfrrec k (by omega) hkd).1 hk
                rw [hrk]
          · show parse_tuple_columns (d.take k) (m + 1) p = _
            unfold parse_tuple_columns
            rw [if_neg (not_not_intro (by simp [has_bytes, List.length_take]; omega))]
            have h8 : read_u8 (d.take k) p = .ok (t, p + 1) :=
              (hfr8 k hpk hkd).2 (by omega)
            rw [h8]
            norm_num [ht110, ht117, ht116]
            have hlk : read_length_prefixed_string (d.take k) (p + 1)
                = .ok (text, p2) :=
              (hfrlp k (by omega) hkd).2 (by omega)
            rw [hlk]
            norm_num
            have hrk : parse_tuple_columns (d.take k) m p2 = .ok (rest, p3) :=
              (hfrrec k (by omega) hkd).2 (by omega)
            rw [hrk]
        · rw [if_neg ht116] at h
          exact absurd h (by simp)

theorem frames_parse_tuple_data : Frames parse_tuple_data := by
  intro d p a q h
  unfold parse_tuple_data at h
  by_cases hhb : has_bytes d p 2 = true
  case neg =>
    rw [if_pos (by simpa using hhb)] at h
    exact absurd h (by simp)
  rw [if_neg (not_not_intro hhb)] at h
  rcases hc : read_i16 d p with e | ⟨cnt, p1⟩
  · rw [hc] at h
    exact absurd h (by simp)
  rw [hc] at h
  norm_num at h
  unfold read_i16 at hc
  have hp1 : p1 = p + 2 := by
    unfold read_int at hc
    rcases hu : read_uint d p 2 with e | ⟨v, q2⟩
    · rw [hu] at hc
      exact absurd hc (by simp)
    · rw [hu] at hc
      norm_num at hc
      obtain ⟨_, hq2⟩ := hc
      obtain ⟨_, hq2', _⟩ := read_uint_ok hu
      omega
  subst hp1
  obtain ⟨_, hfr16⟩ := frames_read_int 2 d p cnt (p + 2) hc
  rcases hcols : parse_tuple_columns d cnt.toNat (p + 2) with e | ⟨cols, p2⟩
  · rw [hcols] at h
    exact absurd h (by simp)
  rw [hcols] at h
  norm_num at h
  obtain ⟨ha, hq⟩ := h
  subst ha hq
  obtain ⟨hp2, hfrcols⟩ := frames_parse_tuple_columns cnt.toNat d (p + 2) cols p2 hcols
  refine ⟨by omega, fun k hpk hkd => ⟨fun hk => ?_, fun hk => ?_⟩⟩
  · unfold parse_tuple_data
    by_cases hk2 : k < p + 2
    · rw [if_pos (by simp [has_bytes, List.length_take]; omega)]
    · rw [if_neg (not_not_intro (by simp [has_bytes, List.length_take]; omega))]
      have h16 : read_int (d.take k) p 2 = .ok (cnt, p + 2) :=
        (hfr16 k hpk hkd).2 (by omega)
      unfold read_i16
      rw [h16]
      norm_num
      have hck : parse_tuple_columns (d.take k) cnt.toNat (p + 2)
          = Except.error RError.parse :=
        (hfrcols k (by omega) hkd).1 hk
      rw [hck]
  · unfold parse_tuple_data
    rw [if_neg (not_not_intro (by simp [has_bytes, List.length_take]; omega))]
    have h16 : read_int (d.take k) p 2 = .ok (cnt, p + 2) :=
      (hfr16 k hpk hkd).2 (by omega)
    unfold read_i16
    rw [h16]
    norm_num
    have hck : parse_tuple_columns (d.take k) cnt.toNat (p + 2) = .ok (cols, p2) :=
      (hfrcols k (by omega) hkd).2 (by omega)
    rw [hck]

theorem frames_parse_relation_columns (n : Nat) :
    Frames (fun d p => parse_relation_columns d n p) := by
  induction n with
  | zero =>
    intro d p a q h
    change parse_relation_columns d 0 p = _ at h
    unfold parse_relation_columns at h
    norm_num at h
    obtain ⟨ha, hq⟩ := h
    subst ha hq
    exact ⟨le_refl p, fun k hpk hkd =>
      ⟨fun hk => absurd hk (by omega), fun hk => by
        show parse_relation_columns (d.take k) 0 p = _
        unfold parse_relation_columns
        rfl⟩⟩
  | succ m ih =>
    intro d p a q h
    change parse_relation_columns d (m + 1) p = _ at h
    unfold parse_relation_columns at h
    by_cases hhb : has_bytes d p 9 = true
    case neg =>
      rw [if_pos (by simpa using hhb)] at h
      exact absurd h (by simp)
    rw [if_neg (not_not_intro hhb)] at h
    rcases hr : read_u8 d p with e | ⟨kf, p1⟩
    · rw [hr] at h
      exact absurd h (by simp)
    rw [hr] at h
    norm_num at h
    obtain ⟨hgp, hp1⟩ := read_u8_ok hr
    subst hp1
    obtain ⟨_, hfr8⟩ := frames_read_u8 d p kf (p + 1) hr
    rcases hcs : read_null_terminated_string d (p + 1) with e | ⟨cname, p2⟩
    · rw [hcs] at h
      exact absurd h (by simp)
    rw [hcs] at h
    norm_num at h
    obtain ⟨hp1p2, hfrcs⟩ := frames_cstr d (p + 1) cname p2 hcs
    rcases hu32 : read_u32 d p2 with e | ⟨ct, p3⟩
    · rw [hu32] at h
      exact absurd h (by simp)
    rw [hu32] at h
    norm_num at h
    unfold read_u32 at hu32
    obtain ⟨hctv, hp3, _⟩ := read_uint_ok hu32
    subst hctv hp3
    obtain ⟨_, hfru32⟩ := frames_read_uint 4 d p2 _ _ hu32
    rcases hi32 : read_i32 d (p2 + 4) with e | ⟨tm, p4⟩
    · rw [hi32] at h
      exact absurd h (by simp)
    rw [hi32] at h
    norm_num at h
    unfold read_i32 at hi32
    have hp4 : p4 = p2 + 4 + 4 := by
      unfold read_int at hi32
      rcases hu : read_uint d (p2 + 4) 4 with e | ⟨v, q2⟩
      · rw [hu] at hi32
        exact absurd hi32 (by simp)
      · rw [hu] at hi32
        norm_num at hi32
        obtain ⟨_, hq2⟩ := hi32
        obtain ⟨_, hq2', _⟩ := read_uint_ok hu
        omega
    subst hp4
    obtain ⟨_, hfri32⟩ := frames_read_int 4 d (p2 + 4) tm _ hi32
    rcases hrec : parse_relation_columns d m (p2 + 4 + 4) with e | ⟨rest, p5⟩
    · rw [hrec] at h
      exact absurd h (by simp)
    rw [hrec] at h
    norm_num at h
    obtain ⟨ha, hq⟩ := h
    subst ha hq
    obtain ⟨hp5, hfrrec⟩ := ih d (p2 + 4 + 4) rest p5 hrec
    refine ⟨by omega, fun k hpk hkd => ⟨fun hk => ?_, fun hk => ?_⟩⟩
    · show parse_relation_columns (d.take k) (m + 1) p = _
      unfold parse_relation_columns
      by_cases hk9 : k < p + 9
      · rw [if_pos (by simp [has_bytes, List.length_take]; omega)]
      · rw [if_neg (not_not_intro (by simp [has_bytes, List.length_take]; omega))]
        have h8 : read_u8 (d.take k) p = .ok (kf, p + 1) :=
          (hfr8 k hpk hkd).2 (by omega)
        rw [h8]
        norm_num
        by_cases hkcs : k < p2
        · have hcsk : read_null_terminated_string (d.take k) (p + 1)
              = Except.error RError.parse :=
            (hfrcs k (by omega) hkd).1 hkcs
          rw [hcsk]
        · have hcsk : read_null_terminated_string (d.take k) (p + 1)
              = .ok (cname, p2) :=
            (hfrcs k (by omega) hkd).2 (by omega)
          rw [hcsk]
          norm_num
          by_cases hku : k < p2 + 4
          · have huk : read_uint (d.take k) p2 4 = Except.error RError.parse :=
              (hfru32 k (by omega) hkd).1 hku
            unfold read_u32
            rw [huk]
          · have huk : read_uint (d.take k) p2 4
                = .ok (beVal (slice d p2 4), p2 + 4) :=
              (hfru32 k (by omega) hkd).2 (by omega)
            unfold read_u32
            rw [huk]
            norm_num
            by_cases hki : k < p2 + 4 + 4
            · have hik : read_int (d.take k) (p2 + 4) 4
                  = Except.error RError.parse :=
                (hfri32 k (by omega) hkd).1 hki
              unfold read_i32
              rw [hik]
            · have hik : read_int (d.take k) (p2 + 4) 4 = .ok (tm, p2 + 4 + 4) :=
                (hfri32 k (by omega) hkd).2 (by omega)
              unfold read_i32
              rw [hik]
              norm_num
              have hrk : parse_relation_columns (d.take k) m (p2 + 4 + 4)
                  = Except.error RError.parse :=
                (hfrrec k (by omega) hkd).1 hk
              rw [hrk]
    · show parse_relation_columns (d.take k) (m + 1) p = _
      unfold parse_relation_columns
      rw [if_neg (not_not_intro (by simp [has_bytes, List.length_take]; omega))]
      have h8 : read_u8 (d.take k) p = .ok (kf, p + 1) :=
        (hfr8 k hpk hkd).2 (by omega)
      rw [h8]
      norm_num
      have hcsk : read_null_terminated_string (d.take k) (p + 1) = .ok (cname, p2) :=
        (hfrcs k (by omega) hkd).2 (by omega)
      rw [hcsk]
      norm_num
      have huk : read_uint (d.take k) p2 4 = .ok (beVal (slice d p2 4), p2 + 4) :=
        (hfru32 k (by omega) hkd).2 (by omega)
      unfold read_u32
      rw [huk]
      norm_num
      have hik : read_int (d.take k) (p2 + 4) 4 = .ok (tm, p2 + 4 + 4) :=
        (hfri32 k (by omega) hkd).2 (by omega)
      unfold read_i32
      rw [hik]
      norm_num
      have hrk : parse_relation_columns (d.take k) m (p2 + 4 + 4) = .ok (rest, p5) :=
        (hfrrec k (by omega) hkd).2 (by omega)
      rw [hrk]

theorem beVal_aux (w v a : Nat) :
    (beBytes w v).foldl (fun x b => x * 256 + b) a = a * 256 ^ w + v % 256 ^ w := by
  induction w generalizing a with
  | zero => simp [beBytes, Nat.mod_one]
  | succ n ih =>
    unfold beBytes
    rw [List.foldl_cons, ih]
    have hsplit : v % 256 ^ (n + 1) = v % 256 ^ n + 256 ^ n * (v / 256 ^ n % 256) := by
      rw [pow_succ]
      exact Nat.mod_mul
    rw [hsplit]
    ring

theorem beVal_beBytes (w v : Nat) : beVal (beBytes w v) = v % 256 ^ w := by
  unfold beVal
  rw [beVal_aux]
  ring

theorem drop_add {B : List Nat} {p c : Nat} {content rest : List Nat}
    (hdrop : B.drop p = content ++ rest) (hc : content.length = c) :
    B.drop (p + c) = rest := by
  rw [← List.drop_drop c p B, hdrop, ← hc, List.drop_left]

theorem drop_len {B : List Nat} {p : Nat} {content : List Nat}
    (hdrop : B.drop p = content) (hp : p ≤ B.length) :
    B.length = p + content.length := by
  have := congrArg List.length hdrop
  rw [List.length_drop] at this
  omega

theorem read_u8_at {B : List Nat} {p b : Nat} {rest : List Nat}
    (hdrop : B.drop p = b :: rest) : read_u8 B p = .ok (b, p + 1) := by
  refine read_u8_eq ?_
  rw [show p = p + 0 by omega, ← List.get?_drop, hdrop]
  rfl

theorem read_uint_at {B : List Nat} {p n : Nat} {bs rest : List Nat}
    (hdrop : B.drop p = bs ++ rest) (hn : bs.length = n) (hpos : 0 < n) :
    read_uint B p n = .ok (beVal bs, p + n) := by
  have hlen : B.length - p = n + rest.length := by
    have := congrArg List.length hdrop
    rw [List.length_drop, List.length_append, hn] at this
    omega
  have hple : p + n ≤ B.length := by
    rcases le_or_lt p B.length with hc | hc
    · omega
    · rw [List.drop_eq_nil_of_le (by omega)] at hdrop
      have := congrArg List.length hdrop
      rw [List.length_append, hn] at this
      simp at this
      omega
  rw [read_uint_eq hple]
  congr 1
  unfold slice
  rw [hdrop, ← hn, List.take_left]

theorem read_int_at {B : List Nat} {p n : Nat} {bs rest : List Nat}
    (hdrop : B.drop p = bs ++ rest) (hn : bs.length = n) (hpos : 0 < n) :
    read_int B p n = .ok (toSigned (n * 8) (beVal bs), p + n) := by
  unfold read_int
  rw [read_uint_at hdrop hn hpos]

theorem scan_zero_append (s suf : List Nat) (hs : 0 ∉ s) :
    scan_zero (s ++ 0 :: suf) = some s.length := by
  induction s with
  | nil => simp [scan_zero]
  | cons b t ih =>
    have hb : b ≠ 0 := fun hc => hs (hc ▸ List.mem_cons_self b t)
    simp only [List.cons_append]
    unfold scan_zero
    rw [if_neg hb, ih (fun hc => hs (List.mem_cons_of_mem b hc))]
    rfl

theorem cstr_at {B : List Nat} {p : Nat} {s rest : List Nat}
    (hdrop : B.drop p = s ++ 0 :: rest) (hs : 0 ∉ s) :
    read_null_terminated_string B p = .ok (s, p + s.length + 1) := by
  unfold read_null_terminated_string slice
  rw [hdrop, scan_zero_append s rest hs]
  norm_num

theorem lps_at {B : List Nat} {p : Nat} {bs rest : List Nat}
    (hdrop : B.drop p = beBytes 4 bs.length ++ (bs ++ rest))
    (hlen : bs.length < 2 ^ 31) :
    read_length_prefixed_string B p = .ok (bs, p + 4 + bs.length) := by
  unfold read_length_prefixed_string read_i32
  rw [read_int_at hdrop (beBytes_length 4 bs.length) (by omega)]
  have hval : toSigned (4 * 8) (beVal (beBytes 4 bs.length)) = (bs.length : Int) := by
    rw [beVal_beBytes]
    unfold toSigned
    rw [Nat.mod_eq_of_lt (by norm_num; omega)]
    rw [if_pos (by norm_num; exact_mod_cast hlen)]
  rw [hval]
  have hd4 : B.drop (p + 4) = bs ++ rest :=
    drop_add hdrop (beBytes_length 4 bs.length)
  have hrem : B.length - (p + 4) = bs.length + rest.length := by
    have := congrArg List.length hd4
    rw [List.length_drop, List.length_append] at this
    omega
  norm_num
  rw [if_neg (by omega : ¬ B.length - (p + 4) < bs.length)]
  rw [if_neg (by omega : ¬ (bs.length : Int) < 0)]
  unfold slice
  rw [hd4, List.take_left]

theorem drop_succ {B : List Nat} {p b : Nat} {t : List Nat}
    (hdrop : B.drop p = b :: t) : B.drop (p + 1) = t :=
  drop_add (show B.drop p = [b] ++ t by simpa using hdrop) rfl

theorem ok_pos_congr {α : Type} {a : α} {q1 q2 : Nat} (h : q1 = q2) :
    (Except.ok (a, q1) : Except RError (α × Nat)) = .ok (a, q2) := by
  rw [h]

theorem drop_len_ge {B : List Nat} {p : Nat} {content : List Nat}
    (hdrop : B.drop p = content) : content.length ≤ B.length - p := by
  have := congrArg List.length hdrop
  rw [List.length_drop] at this
  omega

theorem parse_tuple_columns_at (ds : List WireDatum) :
    (∀ x ∈ ds, WFdatum x) →
    ∀ (B : List Nat) (p : Nat) (rest : List Nat),
      B.drop p = (ds.map encode_datum).flatten ++ rest →
      ∃ cols, parse_tuple_columns B ds.length p
        = .ok (cols, p + ((ds.map encode_datum).flatten).length) := by
  induction ds with
  | nil =>
    intro _ B p rest _
    exact ⟨[], by simp [parse_tuple_columns]⟩
  | cons dd ds ih =>
    intro hwf B p rest hdrop
    have hwfd : WFdatum dd := hwf dd (by simp)
    have hwfs : ∀ x ∈ ds, WFdatum x := fun x hx => hwf x (by simp [hx])
    rw [List.map_cons, List.flatten_cons, List.append_assoc] at hdrop
    cases dd with
    | nullv =>
      rw [show encode_datum .nullv = [110] from rfl] at hdrop
      have hlenge := drop_len_ge hdrop
      rw [List.singleton_append] at hdrop
      obtain ⟨cols, hcols⟩ := ih hwfs B (p + 1) rest (drop_succ hdrop)
      refine ⟨⟨110, 0, []⟩ :: cols, ?_⟩
      show parse_tuple_columns B (ds.length + 1) p = _
      unfold parse_tuple_columns
      rw [if_neg (not_not_intro (by
        simp only [has_bytes, decide_eq_true_eq]
        simp at hlenge
        omega))]
      rw [read_u8_at hdrop]
      norm_num
      rw [hcols]
      norm_num
      simp [encode_datum]
      try omega
    | toast =>
      rw [show encode_datum .toast = [117] from rfl] at hdrop
      have hlenge := drop_len_ge hdrop
      rw [List.singleton_append] at hdrop
      obtain ⟨cols, hcols⟩ := ih hwfs B (p + 1) rest (drop_succ hdrop)
      refine ⟨⟨117, 0, []⟩ :: cols, ?_⟩
      show parse_tuple_columns B (ds.length + 1) p = _
      unfold parse_tuple_columns
      rw [if_neg (not_not_intro (by
        simp only [has_bytes, decide_eq_true_eq]
        simp at hlenge
        omega))]
      rw [read_u8_at hdrop]
      norm_num
      rw [hcols]
      norm_num
      simp [encode_datum]
      try omega
    | text bs =>
      rw [show encode_datum (.text bs) = 116 :: beBytes 4 bs.length ++ bs from rfl]
        at hdrop
      simp only [List.cons_append, List.append_assoc] at hdrop
      have hlenge := drop_len_ge hdrop
      have hd1 : B.drop (p + 1) = beBytes 4 bs.length
          ++ (bs ++ ((ds.map encode_datum).flatten ++ rest)) := drop_succ hdrop
      have hlps := lps_at hd1 hwfd
      have hd5 : B.drop (p + 1 + 4) = bs ++ ((ds.map encode_datum).flatten ++ rest) :=
        drop_add hd1 (beBytes_length 4 bs.length)
      have hdnext : B.drop (p + 1 + 4 + bs.length)
          = (ds.map encode_datum).flatten ++ rest :=
        drop_add hd5 rfl
      obtain ⟨cols, hcols⟩ := ih hwfs B (p + 1 + 4 + bs.length) rest hdnext
      refine ⟨⟨116, (bs.length : Int), bs⟩ :: cols, ?_⟩
      show parse_tuple_columns B (ds.length + 1) p = _
      unfold parse_tuple_columns
      rw [if_neg (not_not_intro (by
        simp only [has_bytes, decide_eq_true_eq]
        simp at hlenge
        omega))]
      rw [read_u8_at hdrop]
      norm_num
      rw [hlps]
      norm_num
      rw [hcols]
      norm_num
      simp [encode_datum, beBytes_length]
      try omega

theorem parse_tuple_data_at (t : List WireDatum) (hwf : WFtuple t)
    (B : List Nat) (p : Nat) (rest : List Nat)
    (hdrop : B.drop p = encode_tuple t ++ rest) :
    ∃ a, parse_tuple_data B p = .ok (a, p + (encode_tuple t).length) := by
  obtain ⟨hlt, hwfd⟩ := hwf
  rw [show encode_tuple t = beBytes 2 t.length ++ (t.map encode_datum).flatten
      from rfl, List.append_assoc] at hdrop
  have hlenge := drop_len_ge hdrop
  have h16 := read_int_at hdrop (beBytes_length 2 t.length) (by omega)
  have hval : toSigned (2 * 8) (beVal (beBytes 2 t.length)) = (t.length : Int) := by
    rw [beVal_beBytes]
    unfold toSigned
    rw [Nat.mod_eq_of_lt (by norm_num; omega)]
    rw [if_pos (by norm_num; exact_mod_cast (by omega : t.length < 2 ^ 15))]
  rw [hval] at h16
  have hd2 : B.drop (p + 2) = (t.map encode_datum).flatten ++ rest :=
    drop_add hdrop (beBytes_length 2 t.length)
  obtain ⟨cols, hcols⟩ := parse_tuple_columns_at t hwfd B (p + 2) rest hd2
  refine ⟨⟨(t.length : Int), cols, p + 2 + ((t.map encode_datum).flatten).length - p⟩, ?_⟩
  unfold parse_tuple_data read_i16
  rw [if_neg (not_not_intro (by
    simp only [has_bytes, decide_eq_true_eq]
    simp [beBytes_length] at hlenge
    omega))]
  rw [h16]
  norm_num
  rw [hcols]
  norm_num
  simp only [encode_tuple, List.length_append, beBytes_length, List.length_flatten,
    List.map_map]
  try omega

theorem parse_relation_columns_at (cols : List WireCol) :
    (∀ c ∈ cols, WFcol c) →
    ∀ (B : List Nat) (p : Nat) (rest : List Nat),
      B.drop p = (cols.map encode_col).flatten ++ rest →
      ∃ a, parse_relation_columns B cols.length p
        = .ok (a, p + ((cols.map encode_col).flatten).length) := by
  induction cols with
  | nil =>
    intro _ B p rest _
    exact ⟨[], by simp [parse_relation_columns]⟩
  | cons c cs ih =>
    intro hwf B p rest hdrop
    have hwfc : WFcol c := hwf c (by simp)
    have hwfs : ∀ x ∈ cs, WFcol x := fun x hx => hwf x (by simp [hx])
    rw [List.map_cons, List.flatten_cons, List.append_assoc] at hdrop
    rw [show encode_col c = c.key_flag :: (c.name ++ [0]) ++ beBytes 4 c.type_oid
        ++ beBytes 4 c.typmod from rfl] at hdrop
    simp only [List.cons_append, List.append_assoc, List.singleton_append,
      List.nil_append] at hdrop
    have hlenge := drop_len_ge hdrop
    have hd1 : B.drop (p + 1) = c.name ++ 0 :: (beBytes 4 c.type_oid
        ++ (beBytes 4 c.typmod ++ ((cs.map encode_col).flatten ++ rest))) := by
      have := drop_succ hdrop
      simpa using this
    have hcs := cstr_at hd1 hwfc
    have hd1' : B.drop (p + 1) = (c.name ++ [0]) ++ (beBytes 4 c.type_oid
        ++ (beBytes 4 c.typmod ++ ((cs.map encode_col).flatten ++ rest))) := by
      simpa [List.append_assoc] using hd1
    have hd2 : B.drop (p + 1 + c.name.length + 1) = beBytes 4 c.type_oid
        ++ (beBytes 4 c.typmod ++ ((cs.map encode_col).flatten ++ rest)) := by
      have h := drop_add hd1' (show (c.name ++ [0]).length = c.name.length + 1 by simp)
      rw [show p + 1 + (c.name.length + 1) = p + 1 + c.name.length + 1 by omega] at h
      exact h
    have hu32 := read_uint_at hd2 (beBytes_length 4 c.type_oid) (by omega)
    have hd3 : B.drop (p + 1 + c.name.length + 1 + 4) = beBytes 4 c.typmod
        ++ ((cs.map encode_col).flatten ++ rest) :=
      drop_add hd2 (beBytes_length 4 c.type_oid)
    have hi32 := read_int_at hd3 (beBytes_length 4 c.typmod) (by omega)
    have hd4 : B.drop (p + 1 + c.name.length + 1 + 4 + 4)
        = (cs.map encode_col).flatten ++ rest :=
      drop_add hd3 (beBytes_length 4 c.typmod)
    obtain ⟨a, ha⟩ := ih hwfs B (p + 1 + c.name.length + 1 + 4 + 4) rest hd4
    refine ⟨⟨toSigned 8 c.key_flag, c.name, beVal (beBytes 4 c.type_oid),
      toSigned (4 * 8) (beVal (beBytes 4 c.typmod))⟩ :: a, ?_⟩
    show parse_relation_columns B (cs.length + 1) p = _
    unfold parse_relation_columns
    rw [if_neg (not_not_intro (by
      simp only [has_bytes, decide_eq_true_eq]
      simp [beBytes_length] at hlenge
      omega))]
    rw [read_u8_at hdrop]
    norm_num
    rw [hcs]
    norm_num
    unfold read_u32
    rw [hu32]
    norm_num
    unfold read_i32
    rw [hi32]
    norm_num
    rw [ha]
    norm_num
    simp only [encode_col, List.length_cons, List.length_append, beBytes_length,
      List.length_nil]
    try omega

theorem get?_of_drop {B : List Nat} {p b : Nat} {t : List Nat}
    (hdrop : B.drop p = b :: t) : B.get? p = some b := by
  rw [show p = p + 0 by omega, ← List.get?_drop, hdrop]
  rfl

theorem parse_wal_nil (f : Bool) : parse_wal_message [] f = .error .parse := rfl

theorem parse_wal_take_tag {enc : List Nat} {t : Nat} (h0 : enc.get? 0 = some t)
    {k : Nat} (hk : 1 ≤ k) : (enc.take k).get? 0 = some t := by
  rw [List.get?_take (by omega), h0]

theorem take_err_begin (flsn ts xid : Nat) (f : Bool) :
    ∀ k, k < (encode_msg (.begin flsn ts xid)).length →
      parse_wal_message ((encode_msg (.begin flsn ts xid)).take k) f
        = .error .parse := by
  intro k hk
  have hlen : (encode_msg (.begin flsn ts xid)).length = 21 := by
    simp [encode_msg, beBytes_length]
  rw [hlen] at hk
  rcases Nat.eq_zero_or_pos k with rfl | hk1
  · exact parse_wal_nil f
  · have h0 : ((encode_msg (.begin flsn ts xid)).take k).get? 0 = some 66 :=
      parse_wal_take_tag (by simp [encode_msg]) hk1
    unfold parse_wal_message skip_message_type
    rw [read_u8_eq h0]
    norm_num
    unfold parse_begin_message
    rw [if_pos (by simp [has_bytes, List.length_take, hlen]; omega)]

theorem take_err_commit (flags clsn elsn ts : Nat) (f : Bool) :
    ∀ k, k < (encode_msg (.commit flags clsn elsn ts)).length →
      parse_wal_message ((encode_msg (.commit flags clsn elsn ts)).take k) f
        = .error .parse := by
  intro k hk
  have hlen : (encode_msg (.commit flags clsn elsn ts)).length = 26 := by
    simp [encode_msg, beBytes_length]
  rw [hlen] at hk
  rcases Nat.eq_zero_or_pos k with rfl | hk1
  · exact parse_wal_nil f
  · have h0 : ((encode_msg (.commit flags clsn elsn ts)).take k).get? 0 = some 67 :=
      parse_wal_take_tag (by simp [encode_msg]) hk1
    unfold parse_wal_message skip_message_type
    rw [read_u8_eq h0]
    norm_num
    unfold parse_commit_message
    rw [if_pos (by simp [has_bytes, List.length_take, hlen]; omega)]

theorem take_err_stream_commit (xid flags clsn elsn ts : Nat) (f : Bool) :
    ∀ k, k < (encode_msg (.streamCommit xid flags clsn elsn ts)).length →
      parse_wal_message ((encode_msg (.streamCommit xid flags clsn elsn ts)).take k) f
        = .error .parse := by
  intro k hk
  have hlen : (encode_msg (.streamCommit xid flags clsn elsn ts)).length = 30 := by
    simp [encode_msg, beBytes_length]
  rw [hlen] at hk
  rcases Nat.eq_zero_or_pos k with rfl | hk1
  · exact parse_wal_nil f
  · have h0 : ((encode_msg (.streamCommit xid flags clsn elsn ts)).take k).get? 0
        = some 99 :=
      parse_wal_take_tag (by simp [encode_msg]) hk1
    unfold parse_wal_message skip_message_type
    rw [read_u8_eq h0]
    norm_num
    unfold parse_stream_commit_message
    rw [if_pos (by simp [has_bytes, List.length_take, hlen]; omega)]

theorem take_err_stream_abort (xid sub : Nat) (f : Bool) :
    ∀ k, k < (encode_msg (.streamAbort xid sub)).length →
      parse_wal_message ((encode_msg (.streamAbort xid sub)).take k) f
        = .error .parse := by
  intro k hk
  have hlen : (encode_msg (.streamAbort xid sub)).length = 9 := by
    simp [encode_msg, beBytes_length]
  rw [hlen] at hk
  rcases Nat.eq_zero_or_pos k with rfl | hk1
  · exact parse_wal_nil f
  · have h0 : ((encode_msg (.streamAbort xid sub)).take k).get? 0 = some 65 :=
      parse_wal_take_tag (by simp [encode_msg]) hk1
    unfold parse_wal_message skip_message_type
    rw [read_u8_eq h0]
    norm_num
    unfold parse_stream_abort_message
    rw [if_pos (by simp [has_bytes, List.length_take, hlen]; omega)]

theorem take_err_stream_stop (f : Bool) :
    ∀ k, k < (encode_msg .streamStop).length →
      parse_wal_message ((encode_msg .streamStop).take k) f = .error .parse := by
  intro k hk
  have hlen : (encode_msg .streamStop).length = 1 := by simp [encode_msg]
  rw [hlen] at hk
  interval_cases k
  exact parse_wal_nil f

theorem take_err_insert_ns (oid : Nat) (t : List WireDatum) (f : Bool)
    (hwft : WFtuple t) :
    ∀ k, k < (73 :: (beBytes 4 oid ++ 78 :: encode_tuple t)).length →
      parse_wal_message ((73 :: (beBytes 4 oid ++ 78 :: encode_tuple t)).take k) f
        = .error .parse := by
  intro k hk
  have hd1 : (73 :: (beBytes 4 oid ++ 78 :: encode_tuple t)).drop 1
      = beBytes 4 oid ++ 78 :: encode_tuple t := rfl
  have hd5 : (73 :: (beBytes 4 oid ++ 78 :: encode_tuple t)).drop 5
      = 78 :: encode_tuple t := by
    have h := drop_add hd1 (beBytes_length 4 oid)
    norm_num at h
    exact h
  have hd6 : (73 :: (beBytes 4 oid ++ 78 :: encode_tuple t)).drop 6
      = encode_tuple t ++ [] := by
    rw [List.append_nil]
    exact drop_succ hd5
  have hlen : (73 :: (beBytes 4 oid ++ 78 :: encode_tuple t)).length
      = 6 + (encode_tuple t).length := by
    simp [beBytes_length]
    omega
  obtain ⟨a, ha⟩ := parse_tuple_data_at t hwft _ 6 [] hd6
  have hfr := (frames_parse_tuple_data _ 6 a _ ha).2
  rcases Nat.eq_zero_or_pos k with rfl | hk1
  · exact parse_wal_nil f
  have h0 : ((73 :: (beBytes 4 oid ++ 78 :: encode_tuple t)).take k).get? 0
      = some 73 := parse_wal_take_tag (by rfl) hk1
  unfold parse_wal_message skip_message_type
  rw [read_u8_eq h0]
  norm_num
  unfold parse_insert_message
  by_cases hk6 : k < 6
  · rw [if_pos (by simp [has_bytes, List.length_take, hlen]; omega)]
  · rw [if_neg (not_not_intro (by simp [has_bytes, List.length_take, hlen]; omega))]
    have hu : read_uint (73 :: (beBytes 4 oid ++ 78 :: encode_tuple t)) 1 4
        = .ok (beVal (beBytes 4 oid), 5) :=
      read_uint_at hd1 (beBytes_length 4 oid) (by omega)
    have hu' : read_uint ((73 :: (beBytes 4 oid ++ 78 :: encode_tuple t)).take k) 1 4
        = .ok (beVal (beBytes 4 oid), 5) :=
      ((frames_read_uint 4 _ 1 _ 5 hu).2 k (by omega) (by omega)).2 (by omega)
    unfold read_u32
    rw [hu']
    norm_num
    have hg5 : ((73 :: (beBytes 4 oid ++ 78 :: encode_tuple t)).take k).get? 5
        = some 78 := by
      rw [List.get?_take (by omega)]
      exact get?_of_drop hd5
    rw [peek_u8_eq hg5]
    norm_num
    rw [read_u8_eq hg5]
    norm_num
    have hpt : parse_tuple_data
        ((73 :: (beBytes 4 oid ++ 78 :: encode_tuple t)).take k) 6
        = .error .parse :=
      (hfr k (by omega) (by omega)).1 (by omega)
    rw [hpt]

theorem take_err_insert_st (x oid : Nat) (t : List WireDatum) (f : Bool)
    (hwft : WFtuple t) (hhi : hiByte oid ≠ 78) :
    ∀ k, k < (73 :: (beBytes 4 x ++ (beBytes 4 oid ++ 78 :: encode_tuple t))).length →
      parse_wal_message
        ((73 :: (beBytes 4 x ++ (beBytes 4 oid ++ 78 :: encode_tuple t))).take k) f
        = .error .parse := by
  intro k hk
  have hd1 : (73 :: (beBytes 4 x ++ (beBytes 4 oid ++ 78 :: encode_tuple t))).drop 1
      = beBytes 4 x ++ (beBytes 4 oid ++ 78 :: encode_tuple t) := rfl
  have hd5 : (73 :: (beBytes 4 x ++ (beBytes 4 oid ++ 78 :: encode_tuple t))).drop 5
      = beBytes 4 oid ++ 78 :: encode_tuple t := by
    have h := drop_add hd1 (beBytes_length 4 x)
    norm_num at h
    exact h
  have hd9 : (73 :: (beBytes 4 x ++ (beBytes 4 oid ++ 78 :: encode_tuple t))).drop 9
      = 78 :: encode_tuple t := by
    have h := drop_add hd5 (beBytes_length 4 oid)
    norm_num at h
    exact h
  have hd10 : (73 :: (beBytes 4 x ++ (beBytes 4 oid ++ 78 :: encode_tuple t))).drop 10
      = encode_tuple t ++ [] := by
    rw [List.append_nil]
    exact drop_succ hd9
  have hlen : (73 :: (beBytes 4 x ++ (beBytes 4 oid ++ 78 :: encode_tuple t))).length
      = 10 + (encode_tuple t).length := by
    simp [beBytes_length]
    omega
  obtain ⟨a, ha⟩ := parse_tuple_data_at t hwft _ 10 [] hd10
  have hfr := (frames_parse_tuple_data _ 10 a _ ha).2
  rcases Nat.eq_zero_or_pos k with rfl | hk1
  · exact parse_wal_nil f
  have h0 : ((73 :: (beBytes 4 x ++ (beBytes 4 oid ++ 78 :: encode_tuple t))).take k).get? 0
      = some 73 := parse_wal_take_tag (by rfl) hk1
  unfold parse_wal_message skip_message_type
  rw [read_u8_eq h0]
  norm_num
  unfold parse_insert_message
  by_cases hk6 : k < 6
  · rw [if_pos (by simp [has_bytes, List.length_take, hlen]; omega)]
  · rw [if_neg (not_not_intro (by simp [has_bytes, List.length_take, hlen]; omega))]
    have hu : read_uint (73 :: (beBytes 4 x ++ (beBytes 4 oid ++ 78 :: encode_tuple t))) 1 4
        = .ok (beVal (beBytes 4 x), 5) :=
      read_uint_at hd1 (beBytes_length 4 x) (by omega)
    have hu' : read_uint
        ((73 :: (beBytes 4 x ++ (beBytes 4 oid ++ 78 :: encode_tuple t))).take k) 1 4
        = .ok (beVal (beBytes 4 x), 5) :=
      ((frames_read_uint 4 _ 1 _ 5 hu).2 k (by omega) (by omega)).2 (by omega)
    unfold read_u32
    rw [hu']
    norm_num
    have hd5c : (73 :: (beBytes 4 x ++ (beBytes 4 oid ++ 78 :: encode_tuple t))).drop 5
        = hiByte oid :: (beBytes 3 oid ++ 78 :: encode_tuple t) := by
      rw [hd5]
      rfl
    have hg5 : ((73 :: (beBytes 4 x ++ (beBytes 4 oid ++ 78 :: encode_tuple t))).take k).get? 5
        = some (hiByte oid) := by
      rw [List.get?_take (by omega)]
      exact get?_of_drop hd5c
    rw [peek_u8_eq hg5]
    norm_num
    rw [if_neg hhi]
    have hu2 : read_uint (73 :: (beBytes 4 x ++ (beBytes 4 oid ++ 78 :: encode_tuple t))) 5 4
        = .ok (beVal (beBytes 4 oid), 9) :=
      read_uint_at hd5 (beBytes_length 4 oid) (by omega)
    by_cases hk9 : k < 9
    · have hu2' : read_uint
          ((73 :: (beBytes 4 x ++ (beBytes 4 oid ++ 78 :: encode_tuple t))).take k) 5 4
          = .error .parse :=
        ((frames_read_uint 4 _ 5 _ 9 hu2).2 k (by omega) (by omega)).1 (by omega)
      rw [hu2']
    · have hu2' : read_uint
          ((73 :: (beBytes 4 x ++ (beBytes 4 oid ++ 78 :: encode_tuple t))).take k) 5 4
          = .ok (beVal (beBytes 4 oid), 9) :=
        ((frames_read_uint 4 _ 5 _ 9 hu2).2 k (by omega) (by omega)).2 (by omega)
      rw [hu2']
      norm_num
      by_cases hk10 : k < 10
      · have hg9 : ((73 :: (beBytes 4 x ++ (beBytes 4 oid ++ 78 :: encode_tuple t))).take k).get? 9
            = none := List.get?_take_eq_none (by omega)
        rw [show read_u8 ((73 :: (beBytes 4 x ++ (beBytes 4 oid ++ 78 :: encode_tuple t))).take k) 9
            = .error .parse from by unfold read_u8; rw [hg9]]
      · have hg9 : ((73 :: (beBytes 4 x ++ (beBytes 4 oid ++ 78 :: encode_tuple t))).take k).get? 9
            = some 78 := by
          rw [List.get?_take (by omega)]
          exact get?_of_drop hd9
        rw [read_u8_eq hg9]
        norm_num
        have hpt : parse_tuple_data
            ((73 :: (beBytes 4 x ++ (beBytes 4 oid ++ 78 :: encode_tuple t))).take k) 10
            = .error .parse :=
          (hfr k (by omega) (by omega)).1 (by omega)
        rw [hpt]

theorem take_err_insert (xid : Option Nat) (oid : Nat) (t : List WireDatum) (f : Bool)
    (hwf : WFmsg (.insert xid oid t)) :
    ∀ k, k < (encode_msg (.insert xid oid t)).length →
      parse_wal_message ((encode_msg (.insert xid oid t)).take k) f
        = .error .parse := by
  obtain ⟨hwft, hxi⟩ := hwf
  cases xid with
  | none =>
    have hE : encode_msg (.insert none oid t)
        = 73 :: (beBytes 4 oid ++ 78 :: encode_tuple t) := by
      simp [encode_msg, encode_opt_xid]
    rw [hE]
    exact take_err_insert_ns oid t f hwft
  | some x =>
    have hE : encode_msg (.insert (some x) oid t)
        = 73 :: (beBytes 4 x ++ (beBytes 4 oid ++ 78 :: encode_tuple t)) := by
      simp [encode_msg, encode_opt_xid]
    rw [hE]
    exact take_err_insert_st x oid t f hwft (hxi (by simp))

theorem take_err_delete_ns (oid key : Nat) (t : List WireDatum) (f : Bool)
    (hwft : WFtuple t) (hkey : key = 75 ∨ key = 79) :
    ∀ k, k < (68 :: (beBytes 4 oid ++ key :: encode_tuple t)).length →
      parse_wal_message ((68 :: (beBytes 4 oid ++ key :: encode_tuple t)).take k) f
        = .error .parse := by
  intro k hk
  have hd1 : (68 :: (beBytes 4 oid ++ key :: encode_tuple t)).drop 1
      = beBytes 4 oid ++ key :: encode_tuple t := rfl
  have hd5 : (68 :: (beBytes 4 oid ++ key :: encode_tuple t)).drop 5
      = key :: encode_tuple t := by
    have h := drop_add hd1 (beBytes_length 4 oid)
    norm_num at h
    exact h
  have hd6 : (68 :: (beBytes 4 oid ++ key :: encode_tuple t)).drop 6
      = encode_tuple t ++ [] := by
    rw [List.append_nil]
    exact drop_succ hd5
  have hlen : (68 :: (beBytes 4 oid ++ key :: encode_tuple t)).length
      = 6 + (encode_tuple t).length := by
    simp [beBytes_length]
    omega
  obtain ⟨a, ha⟩ := parse_tuple_data_at t hwft _ 6 [] hd6
  have hfr := (frames_parse_tuple_data _ 6 a _ ha).2
  rcases Nat.eq_zero_or_pos k with rfl | hk1
  · exact parse_wal_nil f
  have h0 : ((68 :: (beBytes 4 oid ++ key :: encode_tuple t)).take k).get? 0
      = some 68 := parse_wal_take_tag (by rfl) hk1
  unfold parse_wal_message skip_message_type
  rw [read_u8_eq h0]
  norm_num
  unfold parse_delete_message
  by_cases hk6 : k < 6
  · rw [if_pos (by simp [has_bytes, List.length_take, hlen]; omega)]
  · rw [if_neg (not_not_intro (by simp [has_bytes, List.length_take, hlen]; omega))]
    have hu : read_uint (68 :: (beBytes 4 oid ++ key :: encode_tuple t)) 1 4
        = .ok (beVal (beBytes 4 oid), 5) :=
      read_uint_at hd1 (beBytes_length 4 oid) (by omega)
    have hu' : read_uint ((68 :: (beBytes 4 oid ++ key :: encode_tuple t)).take k) 1 4
        = .ok (beVal (beBytes 4 oid), 5) :=
      ((frames_read_uint 4 _ 1 _ 5 hu).2 k (by omega) (by omega)).2 (by omega)
    unfold read_u32
    rw [hu']
    norm_num
    have hg5 : ((68 :: (beBytes 4 oid ++ key :: encode_tuple t)).take k).get? 5
        = some key := by
      rw [List.get?_take (by omega)]
      exact get?_of_drop hd5
    rw [peek_u8_eq hg5]
    norm_num
    rw [if_pos hkey, read_u8_eq hg5]
    norm_num
    have hpt : parse_tuple_data
        ((68 :: (beBytes 4 oid ++ key :: encode_tuple t)).take k) 6
        = .error .parse :=
      (hfr k (by omega) (by omega)).1 (by omega)
    rw [hpt]

theorem take_err_delete_st (x oid key : Nat) (t : List WireDatum) (f : Bool)
    (hwft : WFtuple t) (hhi75 : hiByte oid ≠ 75) (hhi79 : hiByte oid ≠ 79) :
    ∀ k, k < (68 :: (beBytes 4 x ++ (beBytes 4 oid ++ key :: encode_tuple t))).length →
      parse_wal_message
        ((68 :: (beBytes 4 x ++ (beBytes 4 oid ++ key :: encode_tuple t))).take k) f
        = .error .parse := by
  intro k hk
  have hd1 : (68 :: (beBytes 4 x ++ (beBytes 4 oid ++ key :: encode_tuple t))).drop 1
      = beBytes 4 x ++ (beBytes 4 oid ++ key :: encode_tuple t) := rfl
  have hd5 : (68 :: (beBytes 4 x ++ (beBytes 4 oid ++ key :: encode_tuple t))).drop 5
      = beBytes 4 oid ++ key :: encode_tuple t := by
    have h := drop_add hd1 (beBytes_length 4 x)
    norm_num at h
    exact h
  have hd9 : (68 :: (beBytes 4 x ++ (beBytes 4 oid ++ key :: encode_tuple t))).drop 9
      = key :: encode_tuple t := by
    have h := drop_add hd5 (beBytes_length 4 oid)
    norm_num at h
    exact h
  have hd10 : (68 :: (beBytes 4 x ++ (beBytes 4 oid ++ key :: encode_tuple t))).drop 10
      = encode_tuple t ++ [] := by
    rw [List.append_nil]
    exact drop_succ hd9
  have hlen : (68 :: (beBytes 4 x ++ (beBytes 4 oid ++ key :: encode_tuple t))).length
      = 10 + (encode_tuple t).length := by
    simp [beBytes_length]
    omega
  obtain ⟨a, ha⟩ := parse_tuple_data_at t hwft _ 10 [] hd10
  have hfr := (frames_parse_tuple_data _ 10 a _ ha).2
  rcases Nat.eq_zero_or_pos k with rfl | hk1
  · exact parse_wal_nil f
  have h0 : ((68 :: (beBytes 4 x ++ (beBytes 4 oid ++ key :: encode_tuple t))).take k).get? 0
      = some 68 := parse_wal_take_tag (by rfl) hk1
  unfold parse_wal_message skip_message_type
  rw [read_u8_eq h0]
  norm_num
  unfold parse_delete_message
  by_cases hk6 : k < 6
  · rw [if_pos (by simp [has_bytes, List.length_take, hlen]; omega)]
  · rw [if_neg (not_not_intro (by simp [has_bytes, List.length_take, hlen]; omega))]
    have hu : read_uint (68 :: (beBytes 4 x ++ (beBytes 4 oid ++ key :: encode_tuple t))) 1 4
        = .ok (beVal (beBytes 4 x), 5) :=
      read_uint_at hd1 (beBytes_length 4 x) (by omega)
    have hu' : read_uint
        ((68 :: (beBytes 4 x ++ (beBytes 4 oid ++ key :: encode_tuple t))).take k) 1 4
        = .ok (beVal (beBytes 4 x), 5) :=
      ((frames_read_uint 4 _ 1 _ 5 hu).2 k (by omega) (by omega)).2 (by omega)
    unfold read_u32
    rw [hu']
    norm_num
    have hd5c : (68 :: (beBytes 4 x ++ (beBytes 4 oid ++ key :: encode_tuple t))).drop 5
        = hiByte oid :: (beBytes 3 oid ++ key :: encode_tuple t) := by
      rw [hd5]
      rfl
    have hg5 : ((68 :: (beBytes 4 x ++ (beBytes 4 oid ++ key :: encode_tuple t))).take k).get? 5
        = some (hiByte oid) := by
      rw [List.get?_take (by omega)]
      exact get?_of_drop hd5c
    rw [peek_u8_eq hg5]
    norm_num
    rw [if_neg (by simp [hhi75, hhi79])]
    have hu2 : read_uint (68 :: (beBytes 4 x ++ (beBytes 4 oid ++ key :: encode_tuple t))) 5 4
        = .ok (beVal (beBytes 4 oid), 9) :=
      read_uint_at hd5 (beBytes_length 4 oid) (by omega)
    by_cases hk9 : k < 9
    · have hu2' : read_uint
          ((68 :: (beBytes 4 x ++ (beBytes 4 oid ++ key :: encode_tuple t))).take k) 5 4
          = .error .parse :=
        ((frames_read_uint 4 _ 5 _ 9 hu2).2 k (by omega) (by omega)).1 (by omega)
      rw [hu2']
    · have hu2' : read_uint
          ((68 :: (beBytes 4 x ++ (beBytes 4 oid ++ key :: encode_tuple t))).take k) 5 4
          = .ok (beVal (beBytes 4 oid), 9) :=
        ((frames_read_uint 4 _ 5 _ 9 hu2).2 k (by omega) (by omega)).2 (by omega)
      rw [hu2']
      norm_num
      by_cases hk10 : k < 10
      · have hg9 : ((68 :: (beBytes 4 x ++ (beBytes 4 oid ++ key :: encode_tuple t))).take k).get? 9
            = none := List.get?_take_eq_none (by omega)
        rw [show read_u8 ((68 :: (beBytes 4 x ++ (beBytes 4 oid ++ key :: encode_tuple t))).take k) 9
            = .error .parse from by unfold read_u8; rw [hg9]]
      · have hg9 : ((68 :: (beBytes 4 x ++ (beBytes 4 oid ++ key :: encode_tuple t))).take k).get? 9
            = some key := by
          rw [List.get?_take (by omega)]
          exact get?_of_drop hd9
        rw [read_u8_eq hg9]
        norm_num
        have hpt : parse_tuple_data
            ((68 :: (beBytes 4 x ++ (beBytes 4 oid ++ key :: encode_tuple t))).take k) 10
            = .error .parse :=
          (hfr k (by omega) (by omega)).1 (by omega)
        rw [hpt]

theorem take_err_delete (xid : Option Nat) (oid key : Nat) (t : List WireDatum)
    (f : Bool) (hwf : WFmsg (.delete xid oid key t)) :
    ∀ k, k < (encode_msg (.delete xid oid key t)).length →
      parse_wal_message ((encode_msg (.delete xid oid key t)).take k) f
        = .error .parse := by
  obtain ⟨hkey, hwft, hxi⟩ := hwf
  cases xid with
  | none =>
    have hE : encode_msg (.delete none oid key t)
        = 68 :: (beBytes 4 oid ++ key :: encode_tuple t) := by
      simp [encode_msg, encode_opt_xid]
    rw [hE]
    exact take_err_delete_ns oid key t f hwft hkey
  | some x =>
    have hE : encode_msg (.delete (some x) oid key t)
        = 68 :: (beBytes 4 x ++ (beBytes 4 oid ++ key :: encode_tuple t)) := by
      simp [encode_msg, encode_opt_xid]
    rw [hE]
    exact take_err_delete_st x oid key t f hwft (hxi (by simp)).1 (hxi (by simp)).2

theorem take_err_update_tail_no_old (B : List Nat) (pm : Nat) (tn : List WireDatum)
    (hwftn : WFtuple tn) (rid : Nat) (is : Bool) (xid : Option Nat)
    (hdm : B.drop pm = 78 :: encode_tuple tn)
    (hlen : B.length = pm + 1 + (encode_tuple tn).length) :
    ∀ k, pm ≤ k → k < B.length →
      parse_update_tail (B.take k) rid is xid pm = .error .parse := by
  intro k hpmk hk
  unfold parse_update_tail
  by_cases hkpm : k ≤ pm
  · rw [show read_u8 (B.take k) pm = .error .parse from by
      unfold read_u8
      rw [List.get?_take_eq_none (by omega)]]
  · rw [read_u8_eq (by rw [List.get?_take (by omega)]; exact get?_of_drop hdm)]
    norm_num
    have hd1 : B.drop (pm + 1) = encode_tuple tn ++ [] := by
      rw [List.append_nil]
      exact drop_succ hdm
    obtain ⟨a, ha⟩ := parse_tuple_data_at tn hwftn B (pm + 1) [] hd1
    have hpt := ((frames_parse_tuple_data B (pm + 1) a _ ha).2 k (by omega)
      (by omega)).1 (by omega)
    rw [hpt]

theorem take_err_update_tail_old (B : List Nat) (pm k0 : Nat)
    (ot tn : List WireDatum) (hwfto : WFtuple ot) (hwftn : WFtuple tn)
    (hk0 : k0 = 75 ∨ k0 = 79) (rid : Nat) (is : Bool) (xid : Option Nat)
    (hdm : B.drop pm = k0 :: (encode_tuple ot ++ 78 :: encode_tuple tn))
    (hlen : B.length
      = pm + 1 + (encode_tuple ot).length + 1 + (encode_tuple tn).length) :
    ∀ k, pm ≤ k → k < B.length →
      parse_update_tail (B.take k) rid is xid pm = .error .parse := by
  intro k hpmk hk
  unfold parse_update_tail
  by_cases hkpm : k ≤ pm
  · rw [show read_u8 (B.take k) pm = .error .parse from by
      unfold read_u8
      rw [List.get?_take_eq_none (by omega)]]
  · rw [read_u8_eq (by rw [List.get?_take (by omega)]; exact get?_of_drop hdm)]
    norm_num
    rw [if_pos hk0]
    have hd1 : B.drop (pm + 1) = encode_tuple ot ++ 78 :: encode_tuple tn :=
      drop_succ hdm
    obtain ⟨a, ha⟩ := parse_tuple_data_at ot hwfto B (pm + 1) (78 :: encode_tuple tn) hd1
    have hfro := (frames_parse_tuple_data B (pm + 1) a _ ha).2
    by_cases hko : k < pm + 1 + (encode_tuple ot).length
    · have hpt := (hfro k (by omega) (by omega)).1 (by omega)
      rw [hpt]
    · have hpt := (hfro k (by omega) (by omega)).2 (by omega)
      rw [hpt]
      norm_num
      have hdN : B.drop (pm + 1 + (encode_tuple ot).length) = 78 :: encode_tuple tn :=
        drop_add hd1 rfl
      by_cases hkN : k ≤ pm + 1 + (encode_tuple ot).length
      · rw [show read_u8 (B.take k) (pm + 1 + (encode_tuple ot).length)
            = .error .parse from by
          unfold read_u8
          rw [List.get?_take_eq_none (by omega)]]
      · rw [read_u8_eq (by
          rw [List.get?_take (by omega)]
          exact get?_of_drop hdN)]
        norm_num
        have hd2 : B.drop (pm + 1 + (encode_tuple ot).length + 1)
            = encode_tuple tn ++ [] := by
          rw [List.append_nil]
          exact drop_succ hdN
        obtain ⟨a2, ha2⟩ := parse_tuple_data_at tn hwftn B
          (pm + 1 + (encode_tuple ot).length + 1) [] hd2
        have hpt2 := ((frames_parse_tuple_data B _ a2 _ ha2).2 k (by omega)
          (by omega)).1 (by omega)
        rw [hpt2]

theorem take_err_update_ns_head (oid : Nat) (S : List Nat) (f : Bool)
    (hS1 : 1 ≤ S.length)
    (hpeek : ∀ b rest, S = b :: rest → (b = 75 ∨ b = 79 ∨ b = 78))
    (htail : ∀ k, 5 ≤ k → k < (85 :: (beBytes 4 oid ++ S)).length →
      parse_update_tail ((85 :: (beBytes 4 oid ++ S)).take k)
        (beVal (beBytes 4 oid)) false none 5 = .error .parse) :
    ∀ k, k < (85 :: (beBytes 4 oid ++ S)).length →
      parse_wal_message ((85 :: (beBytes 4 oid ++ S)).take k) f = .error .parse := by
  intro k hk
  have hd1 : (85 :: (beBytes 4 oid ++ S)).drop 1 = beBytes 4 oid ++ S := rfl
  have hd5 : (85 :: (beBytes 4 oid ++ S)).drop 5 = S := by
    have h := drop_add hd1 (beBytes_length 4 oid)
    norm_num at h
    exact h
  have hlen : (85 :: (beBytes 4 oid ++ S)).length = 5 + S.length := by
    simp [beBytes_length]
    omega
  rcases Nat.eq_zero_or_pos k with rfl | hk1
  · exact parse_wal_nil f
  have h0 : ((85 :: (beBytes 4 oid ++ S)).take k).get? 0 = some 85 :=
    parse_wal_take_tag (by rfl) hk1
  unfold parse_wal_message skip_message_type
  rw [read_u8_eq h0]
  norm_num
  unfold parse_update_message
  by_cases hk6 : k < 6
  · rw [if_pos (by simp [has_bytes, List.length_take, hlen]; omega)]
  · rw [if_neg (not_not_intro (by simp [has_bytes, List.length_take, hlen]; omega))]
    have hu : read_uint (85 :: (beBytes 4 oid ++ S)) 1 4
        = .ok (beVal (beBytes 4 oid), 5) :=
      read_uint_at hd1 (beBytes_length 4 oid) (by omega)
    have hu' : read_uint ((85 :: (beBytes 4 oid ++ S)).take k) 1 4
        = .ok (beVal (beBytes 4 oid), 5) :=
      ((frames_read_uint 4 _ 1 _ 5 hu).2 k (by omega) (by omega)).2 (by omega)
    unfold read_u32
    rw [hu']
    norm_num
    obtain ⟨b, rest, hScons⟩ : ∃ b rest, S = b :: rest := by
      cases S with
      | nil => simp at hS1
      | cons a l => exact ⟨a, l, rfl⟩
    have hg5 : ((85 :: (beBytes 4 oid ++ S)).take k).get? 5 = some b := by
      rw [List.get?_take (by omega)]
      exact get?_of_drop (by rw [hd5, hScons])
    rw [peek_u8_eq hg5]
    norm_num
    rw [if_pos (hpeek b rest hScons)]
    exact htail k (by omega) (by omega)

theorem take_err_update_st_head (x oid : Nat) (S : List Nat) (f : Bool)
    (hhi : ¬ (hiByte oid = 75 ∨ hiByte oid = 79 ∨ hiByte oid = 78))
    (htail : ∀ k, 9 ≤ k →
      k < (85 :: (beBytes 4 x ++ (beBytes 4 oid ++ S))).length →
      parse_update_tail ((85 :: (beBytes 4 x ++ (beBytes 4 oid ++ S))).take k)
        (beVal (beBytes 4 oid)) true (some (beVal (beBytes 4 x))) 9
        = .error .parse) :
    ∀ k, k < (85 :: (beBytes 4 x ++ (beBytes 4 oid ++ S))).length →
      parse_wal_message ((85 :: (beBytes 4 x ++ (beBytes 4 oid ++ S))).take k) f
        = .error .parse := by
  intro k hk
  have hd1 : (85 :: (beBytes 4 x ++ (beBytes 4 oid ++ S))).drop 1
      = beBytes 4 x ++ (beBytes 4 oid ++ S) := rfl
  have hd5 : (85 :: (beBytes 4 x ++ (beBytes 4 oid ++ S))).drop 5
      = beBytes 4 oid ++ S := by
    have h := drop_add hd1 (beBytes_length 4 x)
    norm_num at h
    exact h
  have hd9 : (85 :: (beBytes 4 x ++ (beBytes 4 oid ++ S))).drop 9 = S := by
    have h := drop_add hd5 (beBytes_length 4 oid)
    norm_num at h
    exact h
  have hlen : (85 :: (beBytes 4 x ++ (beBytes 4 oid ++ S))).length
      = 9 + S.length := by
    simp [beBytes_length]
    omega
  rcases Nat.eq_zero_or_pos k with rfl | hk1
  · exact parse_wal_nil f
  have h0 : ((85 :: (beBytes 4 x ++ (beBytes 4 oid ++ S))).take k).get? 0
      = some 85 := parse_wal_take_tag (by rfl) hk1
  unfold parse_wal_message skip_message_type
  rw [read_u8_eq h0]
  norm_num
  unfold parse_update_message
  by_cases hk6 : k < 6
  · rw [if_pos (by simp [has_bytes, List.length_take, hlen]; omega)]
  · rw [if_neg (not_not_intro (by simp [has_bytes, List.length_take, hlen]; omega))]
    have hu : read_uint (85 :: (beBytes 4 x ++ (beBytes 4 oid ++ S))) 1 4
        = .ok (beVal (beBytes 4 x), 5) :=
      read_uint_at hd1 (beBytes_length 4 x) (by omega)
    have hu' : read_uint ((85 :: (beBytes 4 x ++ (beBytes 4 oid ++ S))).take k) 1 4
        = .ok (beVal (beBytes 4 x), 5) :=
      ((frames_read_uint 4 _ 1 _ 5 hu).2 k (by omega) (by omega)).2 (by omega)
    unfold read_u32
    rw [hu']
    norm_num
    have hd5c : (85 :: (beBytes 4 x ++ (beBytes 4 oid ++ S))).drop 5
        = hiByte oid :: (beBytes 3 oid ++ S) := by
      rw [hd5]
      rfl
    have hg5 : ((85 :: (beBytes 4 x ++ (beBytes 4 oid ++ S))).take k).get? 5
        = some (hiByte oid) := by
      rw [List.get?_take (by omega)]
      exact get?_of_drop hd5c
    rw [peek_u8_eq hg5]
    norm_num
    rw [if_neg hhi]
    have hu2 : read_uint (85 :: (beBytes 4 x ++ (beBytes 4 oid ++ S))) 5 4
        = .ok (beVal (beBytes 4 oid), 9) :=
      read_uint_at hd5 (beBytes_length 4 oid) (by omega)
    by_cases hk9 : k < 9
    · have hu2' : read_uint
          ((85 :: (beBytes 4 x ++ (beBytes 4 oid ++ S))).take k) 5 4
          = .error .parse :=
        ((frames_read_uint 4 _ 5 _ 9 hu2).2 k (by omega) (by omega)).1 (by omega)
      rw [hu2']
    · have hu2' : read_uint
          ((85 :: (beBytes 4 x ++ (beBytes 4 oid ++ S))).take k) 5 4
          = .ok (beVal (beBytes 4 oid), 9) :=
        ((frames_read_uint 4 _ 5 _ 9 hu2).2 k (by omega) (by omega)).2 (by omega)
      rw [hu2']
      norm_num
      exact htail k (by omega) (by omega)

theorem take_err_update (xid : Option Nat) (oid : Nat)
    (old : Option (Nat × List WireDatum)) (newt : List WireDatum) (f : Bool)
    (hwf : WFmsg (.update xid oid old newt)) :
    ∀ k, k < (encode_msg (.update xid oid old newt)).length →
      parse_wal_message ((encode_msg (.update xid oid old newt)).take k) f
        = .error .parse := by
  obtain ⟨hwfn, hwfo, hxi⟩ := hwf
  cases xid with
  | none =>
    cases old with
    | none =>
      have hE : encode_msg (.update none oid none newt)
          = 85 :: (beBytes 4 oid ++ 78 :: encode_tuple newt) := by
        simp [encode_msg, encode_opt_xid]
      rw [hE]
      refine take_err_update_ns_head oid (78 :: encode_tuple newt) f (by simp)
        (fun b rest hb => by
          rw [List.cons.injEq] at hb
          exact Or.inr (Or.inr hb.1.symm)) ?_
      intro k h5k hk
      refine take_err_update_tail_no_old _ 5 newt hwfn _ _ _ ?_ ?_ k h5k hk
      · have h := drop_add
          (show (85 :: (beBytes 4 oid ++ 78 :: encode_tuple newt)).drop 1
            = beBytes 4 oid ++ 78 :: encode_tuple newt from rfl)
          (beBytes_length 4 oid)
        norm_num at h
        exact h
      · simp [beBytes_length]
        omega
    | some p =>
      obtain ⟨k0, ot⟩ := p
      obtain ⟨hk0, hwfot⟩ := hwfo
      have hE : encode_msg (.update none oid (some (k0, ot)) newt)
          = 85 :: (beBytes 4 oid ++ k0 :: (encode_tuple ot ++ 78 :: encode_tuple newt)) := by
        simp [encode_msg, encode_opt_xid]
      rw [hE]
      refine take_err_update_ns_head oid
        (k0 :: (encode_tuple ot ++ 78 :: encode_tuple newt)) f (by simp)
        (fun b rest hb => by
          rw [List.cons.injEq] at hb
          rcases hk0 with h75 | h79
          · exact Or.inl (hb.1.symm.trans h75)
          · exact Or.inr (Or.inl (hb.1.symm.trans h79))) ?_
      intro k h5k hk
      refine take_err_update_tail_old _ 5 k0 ot newt hwfot hwfn hk0 _ _ _ ?_ ?_ k h5k hk
      · have h := drop_add
          (show (85 :: (beBytes 4 oid ++ k0 :: (encode_tuple ot ++ 78 :: encode_tuple newt))).drop 1
            = beBytes 4 oid ++ k0 :: (encode_tuple ot ++ 78 :: encode_tuple newt) from rfl)
          (beBytes_length 4 oid)
        norm_num at h
        exact h
      · simp [beBytes_length]
        omega
  | some x =>
    have hhi := hxi (by simp)
    have hhi' : ¬ (hiByte oid = 75 ∨ hiByte oid = 79 ∨ hiByte oid = 78) := by
      simp [hhi.1, hhi.2.1, hhi.2.2]
    cases old with
    | none =>
      have hE : encode_msg (.update (some x) oid none newt)
          = 85 :: (beBytes 4 x ++ (beBytes 4 oid ++ 78 :: encode_tuple newt)) := by
        simp [encode_msg, encode_opt_xid]
      rw [hE]
      refine take_err_update_st_head x oid (78 :: encode_tuple newt) f hhi' ?_
      intro k h9k hk
      refine take_err_update_tail_no_old _ 9 newt hwfn _ _ _ ?_ ?_ k h9k hk
      · have hd1 : (85 :: (beBytes 4 x ++ (beBytes 4 oid ++ 78 :: encode_tuple newt))).drop 1
            = beBytes 4 x ++ (beBytes 4 oid ++ 78 :: encode_tuple newt) := rfl
        have hd5 := drop_add hd1 (beBytes_length 4 x)
        norm_num at hd5
        have hd9 := drop_add hd5 (beBytes_length 4 oid)
        norm_num at hd9
        exact hd9
      · simp [beBytes_length]
        omega
    | some p =>
      obtain ⟨k0, ot⟩ := p
      obtain ⟨hk0, hwfot⟩ := hwfo
      have hE : encode_msg (.update (some x) oid (some (k0, ot)) newt)
          = 85 :: (beBytes 4 x ++ (beBytes 4 oid
            ++ k0 :: (encode_tuple ot ++ 78 :: encode_tuple newt))) := by
        simp [encode_msg, encode_opt_xid]
      rw [hE]
      refine take_err_update_st_head x oid
        (k0 :: (encode_tuple ot ++ 78 :: encode_tuple newt)) f hhi' ?_
      intro k h9k hk
      refine take_err_update_tail_old _ 9 k0 ot newt hwfot hwfn hk0 _ _ _ ?_ ?_ k h9k hk
      · have hd1 : (85 :: (beBytes 4 x ++ (beBytes 4 oid
            ++ k0 :: (encode_tuple ot ++ 78 :: encode_tuple newt)))).drop 1
            = beBytes 4 x ++ (beBytes 4 oid
              ++ k0 :: (encode_tuple ot ++ 78 :: encode_tuple newt)) := rfl
        have hd5 := drop_add hd1 (beBytes_length 4 x)
        norm_num at hd5
        have hd9 := drop_add hd5 (beBytes_length 4 oid)
        norm_num at hd9
        exact hd9
      · simp [beBytes_length]
        omega

theorem take_err_relation_body (B : List Nat) (p0 : Nat) (oid : Nat)
    (ns name : List Nat) (ident : Nat) (cols : List WireCol)
    (hns0 : 0 ∉ ns) (hname0 : 0 ∉ name) (hcnt : cols.length < 2 ^ 15)
    (hwfc : ∀ c ∈ cols, WFcol c)
    (hdO : B.drop p0 = beBytes 4 oid ++ (ns ++ 0 :: (name ++ 0 ::
      (ident :: (beBytes 2 cols.length ++ (cols.map encode_col).flatten)))))
    (hlen : B.length = p0 + 4 + (ns.length + 1) + (name.length + 1) + 1 + 2
      + ((cols.map encode_col).flatten).length) :
    ∀ k, p0 ≤ k → k < B.length →
      ((match read_u32 (B.take k) p0 with
       | .error e => .error e
       | .ok (oidv, p1) =>
         match read_null_terminated_string (B.take k) p1 with
         | .error e => .error e
         | .ok (nsv, p2) =>
           match read_null_terminated_string (B.take k) p2 with
           | .error e => .error e
           | .ok (namev, p3) =>
             match read_u8 (B.take k) p3 with
             | .error e => .error e
             | .ok (identv, p4) =>
               match read_i16 (B.take k) p4 with
               | .error e => .error e
               | .ok (cntv, p5) =>
                 match parse_relation_columns (B.take k) cntv.toNat p5 with
                 | .error e => .error e
                 | .ok (colsv, _) =>
                   .ok (.relation ⟨oidv, nsv, namev, identv, cntv, colsv⟩)) :
        Except RError ReplicationMessage)
        = .error .parse := by
  intro k hp0k hk
  have huO : read_uint B p0 4 = .ok (beVal (beBytes 4 oid), p0 + 4) :=
    read_uint_at hdO (beBytes_length 4 oid) (by omega)
  have hdNs : B.drop (p0 + 4) = ns ++ 0 :: (name ++ 0 ::
      (ident :: (beBytes 2 cols.length ++ (cols.map encode_col).flatten))) :=
    drop_add hdO (beBytes_length 4 oid)
  have hcs1 : read_null_terminated_string B (p0 + 4)
      = .ok (ns, p0 + 4 + ns.length + 1) := cstr_at hdNs hns0
  have hdName : B.drop (p0 + 4 + ns.length + 1) = name ++ 0 ::
      (ident :: (beBytes 2 cols.length ++ (cols.map encode_col).flatten)) := by
    have hdNs' : B.drop (p0 + 4) = (ns ++ [0]) ++ (name ++ 0 ::
        (ident :: (beBytes 2 cols.length ++ (cols.map encode_col).flatten))) := by
      simpa [List.append_assoc] using hdNs
    have h := drop_add hdNs' (show (ns ++ [0]).length = ns.length + 1 by simp)
    rw [show p0 + 4 + (ns.length + 1) = p0 + 4 + ns.length + 1 by omega] at h
    exact h
  have hcs2 : read_null_terminated_string B (p0 + 4 + ns.length + 1)
      = .ok (name, p0 + 4 + ns.length + 1 + name.length + 1) := cstr_at hdName hname0
  have hdIdent : B.drop (p0 + 4 + ns.length + 1 + name.length + 1)
      = ident :: (beBytes 2 cols.length ++ (cols.map encode_col).flatten) := by
    have hdName' : B.drop (p0 + 4 + ns.length + 1) = (name ++ [0]) ++
        (ident :: (beBytes 2 cols.length ++ (cols.map encode_col).flatten)) := by
      simpa [List.append_assoc] using hdName
    have h := drop_add hdName' (show (name ++ [0]).length = name.length + 1 by simp)
    rw [show p0 + 4 + ns.length + 1 + (name.length + 1)
        = p0 + 4 + ns.length + 1 + name.length + 1 by omega] at h
    exact h
  have hdCnt : B.drop (p0 + 4 + ns.length + 1 + name.length + 1 + 1)
      = beBytes 2 cols.length ++ (cols.map encode_col).flatten :=
    drop_succ hdIdent
  have h16 : read_int B (p0 + 4 + ns.length + 1 + name.length + 1 + 1) 2
      = .ok ((cols.length : Int), p0 + 4 + ns.length + 1 + name.length + 1 + 1 + 2) := by
    have h := read_int_at hdCnt (beBytes_length 2 cols.length) (by omega)
    rw [show toSigned (2 * 8) (beVal (beBytes 2 cols.length)) = (cols.length : Int) from by
      rw [beVal_beBytes]
      unfold toSigned
      rw [Nat.mod_eq_of_lt (by norm_num; omega)]
      rw [if_pos (by norm_num; exact_mod_cast (by omega : cols.length < 2 ^ 15))]] at h
    exact h
  have hdCols : B.drop (p0 + 4 + ns.length + 1 + name.length + 1 + 1 + 2)
      = (cols.map encode_col).flatten ++ [] := by
    rw [List.append_nil]
    exact drop_add hdCnt (beBytes_length 2 cols.length)
  obtain ⟨a, ha⟩ := parse_relation_columns_at cols hwfc B
    (p0 + 4 + ns.length + 1 + name.length + 1 + 1 + 2) [] hdCols
  have hfrc := (frames_parse_relation_columns cols.length B _ a _ ha).2
  by_cases hkO : k < p0 + 4
  · have h1 : read_uint (B.take k) p0 4 = .error .parse :=
      ((frames_read_uint 4 B p0 _ _ huO).2 k (by omega) (by omega)).1 (by omega)
    unfold read_u32
    rw [h1]
  · have h1 : read_uint (B.take k) p0 4 = .ok (beVal (beBytes 4 oid), p0 + 4) :=
      ((frames_read_uint 4 B p0 _ _ huO).2 k (by omega) (by omega)).2 (by omega)
    unfold read_u32
    rw [h1]
    norm_num
    by_cases hkNs : k < p0 + 4 + ns.length + 1
    · have h2 : read_null_terminated_string (B.take k) (p0 + 4) = .error .parse :=
        ((frames_cstr B (p0 + 4) _ _ hcs1).2 k (by omega) (by omega)).1 (by omega)
      rw [h2]
    · have h2 : read_null_terminated_string (B.take k) (p0 + 4)
          = .ok (ns, p0 + 4 + ns.length + 1) :=
        ((frames_cstr B (p0 + 4) _ _ hcs1).2 k (by omega) (by omega)).2 (by omega)
      rw [h2]
      norm_num
      by_cases hkName : k < p0 + 4 + ns.length + 1 + name.length + 1
      · have h3 : read_null_terminated_string (B.take k) (p0 + 4 + ns.length + 1)
            = .error .parse :=
          ((frames_cstr B _ _ _ hcs2).2 k (by omega) (by omega)).1 (by omega)
        rw [h3]
      · have h3 : read_null_terminated_string (B.take k) (p0 + 4 + ns.length + 1)
            = .ok (name, p0 + 4 + ns.length + 1 + name.length + 1) :=
          ((frames_cstr B _ _ _ hcs2).2 k (by omega) (by omega)).2 (by omega)
        rw [h3]
        norm_num
        by_cases hkId : k ≤ p0 + 4 + ns.length + 1 + name.length + 1
        · rw [show read_u8 (B.take k) (p0 + 4 + ns.length + 1 + name.length + 1)
              = .error .parse from by
            unfold read_u8
            rw [List.get?_take_eq_none (by omega)]]
        · rw [read_u8_eq (by
            rw [List.get?_take (by omega)]
            exact get?_of_drop hdIdent)]
          norm_num
          by_cases hkCnt : k < p0 + 4 + ns.length + 1 + name.length + 1 + 1 + 2
          · have h4 : read_int (B.take k)
                (p0 + 4 + ns.length + 1 + name.length + 1 + 1) 2 = .error .parse :=
              ((frames_read_int 2 B _ _ _ h16).2 k (by omega) (by omega)).1 (by omega)
            unfold read_i16
            rw [h4]
          · have h4 : read_int (B.take k)
                (p0 + 4 + ns.length + 1 + name.length + 1 + 1) 2
                = .ok ((cols.length : Int),
                    p0 + 4 + ns.length + 1 + name.length + 1 + 1 + 2) :=
              ((frames_read_int 2 B _ _ _ h16).2 k (by omega) (by omega)).2 (by omega)
            unfold read_i16
            rw [h4]
            norm_num
            have h5 : parse_relation_columns (B.take k) cols.length
                (p0 + 4 + ns.length + 1 + name.length + 1 + 1 + 2)
                = .error .parse :=
              (hfrc k (by omega) (by omega)).1 (by omega)
            rw [h5]

theorem take_err_relation (xid : Option Nat) (oid : Nat) (ns name : List Nat)
    (ident : Nat) (cols : List WireCol) (f : Bool)
    (hwf : WFmsg (.relation xid oid ns name ident cols))
    (hfl : flag_matches (.relation xid oid ns name ident cols) f) :
    ∀ k, k < (encode_msg (.relation xid oid ns name ident cols)).length →
      parse_wal_message ((encode_msg (.relation xid oid ns name ident cols)).take k) f
        = .error .parse := by
  obtain ⟨hns0, hname0, hcnt, hwfc⟩ := hwf
  cases xid with
  | none =>
    have hf : f = false := by simpa [flag_matches] using hfl.symm
    subst hf
    have hE : encode_msg (.relation none oid ns name ident cols)
        = 82 :: (beBytes 4 oid ++ (ns ++ 0 :: (name ++ 0 ::
            (ident :: (beBytes 2 cols.length ++ (cols.map encode_col).flatten))))) := by
      simp [encode_msg, encode_opt_xid, List.append_assoc]
    rw [hE]
    intro k hk
    rcases Nat.eq_zero_or_pos k with rfl | hk1
    · exact parse_wal_nil false
    have h0 : ((82 :: (beBytes 4 oid ++ (ns ++ 0 :: (name ++ 0 ::
        (ident :: (beBytes 2 cols.length ++ (cols.map encode_col).flatten)))))).take k).get? 0
        = some 82 := parse_wal_take_tag (by rfl) hk1
    unfold parse_wal_message skip_message_type
    rw [read_u8_eq h0]
    norm_num
    unfold parse_relation_message
    by_cases hhb : has_bytes ((82 :: (beBytes 4 oid ++ (ns ++ 0 :: (name ++ 0 ::
        (ident :: (beBytes 2 cols.length ++ (cols.map encode_col).flatten)))))).take k) 1
        (if false then 11 else 7) = true
    · rw [if_neg (not_not_intro hhb)]
      norm_num
      have hdO : (82 :: (beBytes 4 oid ++ (ns ++ 0 :: (name ++ 0 ::
          (ident :: (beBytes 2 cols.length ++ (cols.map encode_col).flatten)))))).drop 1
          = beBytes 4 oid ++ (ns ++ 0 :: (name ++ 0 ::
            (ident :: (beBytes 2 cols.length ++ (cols.map encode_col).flatten)))) := rfl
      exact take_err_relation_body _ 1 oid ns name ident cols hns0 hname0 hcnt hwfc
        hdO (by simp [beBytes_length]; omega) k (by omega) hk
    · rw [if_pos (by simpa using hhb)]
  | some x =>
    have hf : f = true := by simpa [flag_matches] using hfl.symm
    subst hf
    have hE : encode_msg (.relation (some x) oid ns name ident cols)
        = 82 :: (beBytes 4 x ++ (beBytes 4 oid ++ (ns ++ 0 :: (name ++ 0 ::
            (ident :: (beBytes 2 cols.length ++ (cols.map encode_col).flatten)))))) := by
      simp [encode_msg, encode_opt_xid, List.append_assoc]
    rw [hE]
    intro k hk
    rcases Nat.eq_zero_or_pos k with rfl | hk1
    · exact parse_wal_nil true
    have h0 : ((82 :: (beBytes 4 x ++ (beBytes 4 oid ++ (ns ++ 0 :: (name ++ 0 ::
        (ident :: (beBytes 2 cols.length ++ (cols.map encode_col).flatten))))))).take k).get? 0
        = some 82 := parse_wal_take_tag (by rfl) hk1
    unfold parse_wal_message skip_message_type
    rw [read_u8_eq h0]
    norm_num
    unfold parse_relation_message
    by_cases hhb : has_bytes ((82 :: (beBytes 4 x ++ (beBytes 4 oid ++ (ns ++ 0 ::
        (name ++ 0 :: (ident :: (beBytes 2 cols.length
          ++ (cols.map encode_col).flatten))))))).take k) 1
        (if true then 11 else 7) = true
    · rw [if_neg (not_not_intro hhb)]
      norm_num
      have hd1 : (82 :: (beBytes 4 x ++ (beBytes 4 oid ++ (ns ++ 0 :: (name ++ 0 ::
          (ident :: (beBytes 2 cols.length ++ (cols.map encode_col).flatten))))))).drop 1
          = beBytes 4 x ++ (beBytes 4 oid ++ (ns ++ 0 :: (name ++ 0 ::
            (ident :: (beBytes 2 cols.length ++ (cols.map encode_col).flatten))))) := rfl
      have hux : read_uint (82 :: (beBytes 4 x ++ (beBytes 4 oid ++ (ns ++ 0 ::
          (name ++ 0 :: (ident :: (beBytes 2 cols.length
            ++ (cols.map encode_col).flatten))))))) 1 4
          = .ok (beVal (beBytes 4 x), 5) :=
        read_uint_at hd1 (beBytes_length 4 x) (by omega)
      by_cases hk5 : k < 5
      · have hux' : read_uint ((82 :: (beBytes 4 x ++ (beBytes 4 oid ++ (ns ++ 0 ::
            (name ++ 0 :: (ident :: (beBytes 2 cols.length
              ++ (cols.map encode_col).flatten))))))).take k) 1 4
            = .error .parse :=
          ((frames_read_uint 4 _ 1 _ 5 hux).2 k (by omega) (by omega)).1 (by omega)
        unfold read_u32
        rw [hux']
      · have hux' : read_uint ((82 :: (beBytes 4 x ++ (beBytes 4 oid ++ (ns ++ 0 ::
            (name ++ 0 :: (ident :: (beBytes 2 cols.length
              ++ (cols.map encode_col).flatten))))))).take k) 1 4
            = .ok (beVal (beBytes 4 x), 5) :=
          ((frames_read_uint 4 _ 1 _ 5 hux).2 k (by omega) (by omega)).2 (by omega)
        unfold read_u32
        rw [hux']
        norm_num
        have hd5 : (82 :: (beBytes 4 x ++ (beBytes 4 oid ++ (ns ++ 0 :: (name ++ 0 ::
            (ident :: (beBytes 2 cols.length ++ (cols.map encode_col).flatten))))))).drop 5
            = beBytes 4 oid ++ (ns ++ 0 :: (name ++ 0 ::
              (ident :: (beBytes 2 cols.length ++ (cols.map encode_col).flatten)))) := by
          have h := drop_add hd1 (beBytes_length 4 x)
          norm_num at h
          exact h
        exact take_err_relation_body _ 5 oid ns name ident cols hns0 hname0 hcnt hwfc
          hd5 (by simp [beBytes_length]; omega) k (by omega) hk
    · rw [if_pos (by simpa using hhb)]

/-- Claim C10 witness: a 24-byte frame and a 25-byte frame. -/
theorem C10_short_wal_frames_witness :
    process_wal_message ReplicationState.new (List.replicate 24 0) 0
      = (ReplicationState.new, [], .error .protocol)
    ∧ process_wal_message ReplicationState.new (119 :: List.replicate 24 1) 0
      = (ReplicationState.new.update_lsn
          (beVal (slice (119 :: List.replicate 24 1) 1 8)), [], .error .protocol) :=
  ⟨(C10_short_wal_frames ReplicationState.new (List.replicate 24 0) 0).1 (by decide),
   (C10_short_wal_frames ReplicationState.new (119 :: List.replicate 24 1) 0).2
     (by decide)⟩

/-- Claim C3 counterexample: the original claim fails. The 6-byte StreamStart
encoding for xid 1 with first_segment byte 1 is a valid encoded message, yet
its 5-byte strict prefix is parsed successfully (as StreamStart with
first_segment false, the optional trailing byte being absent) instead of
yielding a Parse error. -/
theorem C3_counterexample :
    WFmsg (.streamStart 1 1) ∧ flag_matches (.streamStart 1 1) false
    ∧ 5 < (encode_msg (.streamStart 1 1)).length
    ∧ parse_wal_message ((encode_msg (.streamStart 1 1)).take 5) false
        = .ok (.streamStart 1 false) := by
  refine ⟨trivial, trivial, by decide, ?_⟩
  rfl

/-- Claim C3 (amended): for every well-formed wire message whose tag is
neither StreamStart nor Truncate — well-formed meaning NUL-free strings,
counts fitting their field widths, key-marker bytes in the legal set, a
streamed DML relation OID whose high byte avoids the tuple-marker bytes, and
a Relation layout agreeing with the in_streaming_txn flag — parse_wal_message
returns the Parse error on every strict prefix of its encoding. StreamStart
and Truncate are genuine exceptions: each admits a valid encoding with a
successfully parsing strict prefix. -/
theorem C3_strict_prefix_errors (m : WireMsg) (f : Bool)
    (hwf : WFmsg m) (hfl : flag_matches m f)
    (hss : m.isSS = false) (htr : m.isTr = false) :
    ∀ k, k < (encode_msg m).length →
      parse_wal_message ((encode_msg m).take k) f = .error .parse := by
  cases m with
  | begin flsn ts xid => exact take_err_begin flsn ts xid f
  | commit flags clsn elsn ts => exact take_err_commit flags clsn elsn ts f
  | relation xid oid ns name ident cols =>
    exact take_err_relation xid oid ns name ident cols f hwf hfl
  | insert xid oid tuple => exact take_err_insert xid oid tuple f hwf
  | update xid oid old newt => exact take_err_update xid oid old newt f hwf
  | delete xid oid key tuple => exact take_err_delete xid oid key tuple f hwf
  | truncate xid flags ids => simp [WireMsg.isTr] at htr
  | streamStart xid fs => simp [WireMsg.isSS] at hss
  | streamStop => exact take_err_stream_stop f
  | streamCommit xid flags clsn elsn ts =>
    exact take_err_stream_commit xid flags clsn elsn ts f
  | streamAbort xid sub => exact take_err_stream_abort xid sub f

/-- Claim C3 witness: the amended theorem at a streamed Insert of the text
datum "hi" for relation 42 in transaction 7, truncated to 12 of its 19
bytes. -/
theorem C3_strict_prefix_errors_witness :
    parse_wal_message ((encode_msg (.insert (some 7) 42 [.text [104, 105]])).take 12)
      true = .error .parse :=
  C3_strict_prefix_errors (.insert (some 7) 42 [.text [104, 105]]) true
    (by constructor
        · exact ⟨by decide, by intro d hd; simp at hd; subst hd; decide⟩
        · intro h; decide)
    trivial rfl rfl 12 (by decide)

end RepCheck
